import Mathlib

/-!
# Verification of the tool-query JSONPath (RFC 9535) implementation

This file is a shallow embedding, in Lean 4, of the core of the
`tool-query` TypeScript package: the JSONPath AST (`expression.ts`,
`segment.ts`, `selector.ts`, `query.ts`), the recursive-descent parser and
formatter (`parse.ts`), the tree-walking evaluator, and the intrinsic
function extensions (`function.ts`), together with theorems checking the
package's natural-language specification against the code.

Conventions of the embedding:

* JavaScript strings are sequences of UTF-16 code units, modelled as
  `List Nat` (named `JSString`).  `String.charCodeAt(i)` becomes list
  indexing; the `-1` sentinel used by the scanner for "end of input" is
  modelled by reading through `charAt`, which returns an `Int`.
* JSON values are modelled by the inductive type `JSON`.  Numbers are
  modelled as exact rationals (`Rat`); IEEE-754 rounding of the host is
  not modelled (no claim under study depends on it).
* The `tool-json` dependency is an external collaborator of the package
  (its sources are not part of this repository); its primitives
  (`isArray`, `getChild`, `getChildren`, `getDescendants`, `equal`,
  `compare`, `unicodeLength`) are modelled from the specification's
  contract for them (spec section 6).
* Fallible TypeScript code (functions that may throw) returns
  `Except`-valued results.  The mutable parse/evaluation context is
  threaded explicitly; an erroring computation still returns the context
  it left behind, matching JavaScript exception semantics where `finally`
  blocks run while the mutation of the context object persists.
* The parser is presented with an explicit fuel argument (structural on
  `Nat`); every fuel decrement in an execution consumes at least one
  input character over a whole cycle of the grammar, and the top-level
  entry points supply fuel well above the input length, so fuel
  exhaustion is unreachable for the concrete inputs evaluated here, and
  the universally-quantified theorems are stated in a form
  (success implies invariant) that is insensitive to fuel.
-/

set_option maxHeartbeats 4000000

namespace ToolQuery

/-- A JavaScript string: a sequence of UTF-16 code units. -/
abbrev JSString := List Nat

/-- Encodes a Lean string as a JavaScript string (UTF-16 code units),
splitting supplementary-plane scalars into surrogate pairs. -/
def jstr (s : String) : JSString :=
  s.data.flatMap fun c =>
    let n := c.toNat
    if n < 0x10000 then [n]
    else [0xd800 + (n - 0x10000) / 0x400, 0xdc00 + (n - 0x10000) % 0x400]

/-- A JSON value.  Object members are kept in insertion order, as the
host JSON library supplies them. -/
inductive JSON where
  | null : JSON
  | bool (b : Bool) : JSON
  | num (q : Rat) : JSON
  | str (s : JSString) : JSON
  | arr (elements : List JSON) : JSON
  | obj (members : List (JSString × JSON)) : JSON
deriving Inhabited

/-- Modelled from the spec: `isArray(n)` of the external JSON library. -/
def isArray : JSON → Bool
  | .arr _ => true
  | _ => false

/-- Modelled from the spec: `isObject(n)` of the external JSON library. -/
def isObject : JSON → Bool
  | .obj _ => true
  | _ => false

/-- Modelled from the spec: `isString(n)` of the external JSON library. -/
def isString : JSON → Bool
  | .str _ => true
  | _ => false

/-- Modelled from the spec: `getChild(n, k)`, member lookup by name on an
object node; `undefined` (here `none`) on all other nodes. -/
def getChild : JSON → JSString → Option JSON
  | .obj members, k => (members.find? (fun m => m.1 == k)).map (·.2)
  | _, _ => none

/-- Modelled from the spec: `getChildren(n)`, ordered child enumeration:
array elements in index order, object member values in insertion order,
nothing for scalars. -/
def getChildren : JSON → List JSON
  | .arr elements => elements
  | .obj members => members.map (·.2)
  | _ => []

mutual

/-- Modelled from the spec: `getDescendants(n)`, the proper descendants
of a node in pre-order (each child followed by its own descendants). -/
def getDescendants : JSON → List JSON
  | .arr elements => descList elements
  | .obj members => descMembers members
  | _ => []

/-- Pre-order descendant enumeration over a list of array elements. -/
def descList : List JSON → List JSON
  | [] => []
  | x :: xs => x :: (getDescendants x ++ descList xs)

/-- Pre-order descendant enumeration over a list of object members. -/
def descMembers : List (JSString × JSON) → List JSON
  | [] => []
  | m :: ms => m.2 :: (getDescendants m.2 ++ descMembers ms)

end

mutual

/-- Modelled from the spec: `equal(a, b)`, deep JSON-value equality
(value equality, not identity; object members compared per key). -/
def equalJSON : JSON → JSON → Bool
  | .null, .null => true
  | .bool a, .bool b => a == b
  | .num a, .num b => a == b
  | .str a, .str b => a == b
  | .arr a, .arr b => equalArr a b
  | .obj a, .obj b => a.length == b.length && equalObjMembers a b
  | _, _ => false

/-- Element-wise equality of JSON arrays. -/
def equalArr : List JSON → List JSON → Bool
  | [], [] => true
  | x :: xs, y :: ys => equalJSON x y && equalArr xs ys
  | _, _ => false

/-- Every member of the first object occurs, with an equal value, in the
second object's member list (keys of a JSON object are unique). -/
def equalObjMembers : List (JSString × JSON) → List (JSString × JSON) → Bool
  | [], _ => true
  | (k, v) :: rest, b =>
    (match (b.find? (fun m => m.1 == k)).map (·.2) with
     | some w => equalJSON v w
     | none => false)
    && equalObjMembers rest b

end

/-- Decodes a sequence of UTF-16 code units into Unicode scalar values;
a lone surrogate decodes to itself (as JavaScript iteration does). -/
def utf16Scalars : JSString → List Nat
  | [] => []
  | [c] => [c]
  | c :: c2 :: rest =>
    if 0xd800 ≤ c ∧ c ≤ 0xdbff then
      if 0xdc00 ≤ c2 ∧ c2 ≤ 0xdfff then
        (0x10000 + (c - 0xd800) * 0x400 + (c2 - 0xdc00)) :: utf16Scalars rest
      else c :: utf16Scalars (c2 :: rest)
    else c :: utf16Scalars (c2 :: rest)
termination_by s => s.length

/-- Modelled from the spec: `unicodeLength(s)`, the number of Unicode
scalar values of a string. -/
def unicodeLength (s : JSString) : Nat :=
  (utf16Scalars s).length

/-- Lexicographic three-way comparison of scalar-value sequences. -/
def lexCompareNat : List Nat → List Nat → Int
  | [], [] => 0
  | [], _ :: _ => -1
  | _ :: _, [] => 1
  | a :: as, b :: bs =>
    if a < b then -1 else if b < a then 1 else lexCompareNat as bs

/-- Modelled from the spec: `compare(a, b)`, the tri-state ordering of
the external JSON library: numbers with numbers by numeric value,
strings with strings lexicographically by Unicode scalar value;
`undefined` (here `none`) for every other pair. -/
def compareJSON : JSON → JSON → Option Int
  | .num a, .num b => some (if a < b then -1 else if b < a then 1 else 0)
  | .str a, .str b => some (lexCompareNat (utf16Scalars a) (utf16Scalars b))
  | _, _ => none

/-! ## The AST (`expression.ts`, `segment.ts`, `selector.ts`, `query.ts`) -/

/-- `DeclaredType` (`expression.ts`): the declared result type of an
expression — `Value` (0), `Logical` (1), `Nodes` (2). -/
inductive DeclaredType where
  | Value : DeclaredType
  | Logical : DeclaredType
  | Nodes : DeclaredType
deriving DecidableEq, Inhabited

/-- `ComparisonOperator` (`expression.ts`). -/
inductive ComparisonOperator where
  | Equal : ComparisonOperator
  | NotEqual : ComparisonOperator
  | LessThan : ComparisonOperator
  | LessThanOrEqual : ComparisonOperator
  | GreaterThan : ComparisonOperator
  | GreaterThanOrEqual : ComparisonOperator
deriving DecidableEq, Inhabited

/-- The query identifier of a `QueryExpression`: `"$"` or `"@"`. -/
inductive QueryIdentifier where
  | dollar : QueryIdentifier
  | atSign : QueryIdentifier
deriving DecidableEq, Inhabited

/-- `ValueType` (`expression.ts`): a JSON node or `undefined` (Nothing). -/
abbrev ValueType := Option JSON

/-- `ExpressionType` (`expression.ts`): the evaluated type of an
expression — a `ValueType`, a `LogicalType` (boolean), or a `NodesType`
(nodelist).  The TypeScript union is untagged at runtime; the embedding
tags the alternatives. -/
inductive ExpressionType where
  | value (v : ValueType) : ExpressionType
  | logical (b : Bool) : ExpressionType
  | nodes (ns : List JSON) : ExpressionType
deriving Inhabited

/-- `FunctionExtension` (`function.ts`): a named function extension with
declared parameter and result types.  The intrinsic extensions ignore
their context parameter, so `evaluate` takes only the argument list; it
is `Except`-valued because the body may throw (as `match`/`search` do on
an invalid host regular expression). -/
structure FunctionExtension where
  name : JSString
  parameterTypes : List DeclaredType
  resultType : DeclaredType
  evaluate : List ExpressionType → Except String ExpressionType
deriving Inhabited

mutual

/-- `Segment` (`segment.ts`): a child or descendant segment. -/
inductive Segment where
  | child (selectors : List Selector) : Segment
  | descendant (selectors : List Selector) : Segment

/-- `Selector` (`selector.ts`). -/
inductive Selector where
  | name (name : JSString) : Selector
  | wildcard : Selector
  | index (index : Int) : Selector
  | slice (start_ : Option Int) (end_ : Option Int) (step : Option Int) : Selector
  | filter (expression : Expression) : Selector

/-- `Expression` (`expression.ts`).  The TypeScript `ComparableExpression`
is the subset of kinds `literal`, `query`, `function`; comparison sides
are stored as plain expressions here and the evaluator rejects at run
time exactly as the source's `default` branch does. -/
inductive Expression where
  | or (operands : List Expression) : Expression
  | and (operands : List Expression) : Expression
  | comparison (lhs : Expression) (operator : ComparisonOperator) (rhs : Expression) : Expression
  | not (operand : Expression) : Expression
  | query (identifier : QueryIdentifier) (segments : List Segment) : Expression
  | literal (value : JSON) : Expression
  | function (func : FunctionExtension) (args : List Expression) : Expression

end

/-- `Query` (`query.ts`): a possibly empty sequence of segments. -/
structure Query where
  segments : List Segment

/-- `isSingularSelector` (`selector.ts`): name and index selectors are
singular. -/
def isSingularSelector : Selector → Bool
  | .name _ => true
  | .index _ => true
  | _ => false

/-- `isSingularSegment` (`segment.ts`): a child segment with exactly one
singular selector. -/
def isSingularSegment : Segment → Bool
  | .child [selector] => isSingularSelector selector
  | _ => false

/-- `isSingularQuery` (`query.ts`), on the segment list shared by `Query`
and `QueryExpression`: every segment is singular. -/
def isSingularQuery (segments : List Segment) : Bool :=
  segments.all isSingularSegment

/-- `getExpressionPrecedence` (`expression.ts`). -/
def getExpressionPrecedence : Expression → Nat
  | .or _ => 1
  | .and _ => 2
  | .comparison _ _ _ => 3
  | .not _ => 4
  | _ => 5

/-! ## Context (`context.ts`) -/

/-- `QueryScope` (`context.ts`): the lexical scope of the parser —
`Expression` (1) inside a filter body, `Argument` (2) inside one
function-call argument. -/
inductive QueryScope where
  | Expression : QueryScope
  | Argument : QueryScope
deriving DecidableEq, Inhabited

/-- `QueryContext` (`context.ts`): the mutable context shared by parser
and evaluator.  `functionExtensions` is the name-keyed registry
(JavaScript object keys are unique, lookup is by name);
`queryArgument` is the root node bound to `$` (its pre-initialization
`undefined` state, which the evaluator always overwrites before reading,
is modelled as `JSON.null`); `queryScope` is the parser scope flag. -/
structure QueryContext where
  functionExtensions : List (JSString × FunctionExtension)
  queryArgument : JSON
  queryScope : Option QueryScope

/-- Name lookup in the function-extension registry
(`context.functionExtensions?.[name]`). -/
def lookupExtension (exts : List (JSString × FunctionExtension)) (name : JSString) :
    Option FunctionExtension :=
  (exts.find? (fun e => e.1 == name)).map (·.2)

/-! ## Parser (`parse.ts`) -/

/-- `QueryError` (`error.ts`): a parse failure carrying a message and the
byte offset in the input at which it was raised (the `input` string the
TypeScript error also carries is determined by the call and omitted). -/
structure QueryError where
  message : String
  offset : Nat
deriving DecidableEq, Inhabited

/-- The mutable scanner state: the `offset` field of the `InputBuffer`
plus the context (whose `queryScope` the parser mutates).  The `input`
and `limit` fields never change and are passed separately (`limit` is
always the input length). -/
structure PState where
  offset : Nat
  context : QueryContext

/-- The result of a parsing step: an `Except`-valued outcome paired with
the state left behind (JavaScript exceptions leave mutations of the
buffer and context in place). -/
abbrev PResult (α : Type) := Except QueryError α × PState

/-- `buf.input.charCodeAt(buf.offset)` guarded by `buf.offset < buf.limit`,
with the source's `-1` sentinel for end of input. -/
def charAt (input : JSString) (off : Nat) : Int :=
  match input[off]? with
  | some c => (c : Int)
  | none => -1

/-- Advances the scanner offset by one. -/
def bump (st : PState) : PState :=
  { st with offset := st.offset + 1 }

/-- `isUppercase` (`parse.ts`). -/
def isUppercase (c : Int) : Bool := 0x41 ≤ c ∧ c ≤ 0x5a

/-- `isLowercase` (`parse.ts`). -/
def isLowercase (c : Int) : Bool := 0x61 ≤ c ∧ c ≤ 0x7a

/-- `isDigit` (`parse.ts`). -/
def isDigit (c : Int) : Bool := 0x30 ≤ c ∧ c ≤ 0x39

/-- `isAlpha` (`parse.ts`): ASCII `A-Z` and `a-z` only. -/
def isAlpha (c : Int) : Bool := isUppercase c || isLowercase c

/-- `isNameFirstChar` (`parse.ts`): the first character of a shorthand
member name — ASCII alphabetic or underscore (the source's comment reads
`name-first = ALPHA / "_"`). -/
def isNameFirstChar (c : Int) : Bool := isAlpha c || c = 0x5f

/-- `isNameChar` (`parse.ts`). -/
def isNameChar (c : Int) : Bool := isNameFirstChar c || isDigit c

/-- `isIdentifierChar` (`parse.ts`): function-name characters. -/
def isIdentifierChar (c : Int) : Bool := isLowercase c || c = 0x5f || isDigit c

/-- `isSpaceChar` (`parse.ts`): SPACE, TAB, LF, CR. -/
def isSpaceChar (c : Int) : Bool := c = 0x20 || c = 0x09 || c = 0x0a || c = 0x0d

/-- `isUnescapedStringChar` (`parse.ts`). -/
def isUnescapedStringChar (c : Int) : Bool :=
  (0x20 ≤ c ∧ c ≤ 0x21) || (0x23 ≤ c ∧ c ≤ 0x26) || (0x28 ≤ c ∧ c ≤ 0x5b) ||
  (0x5d ≤ c ∧ c ≤ 0xd7ff) || (0xe000 ≤ c ∧ c ≤ 0x10ffff)

/-- The scanning loop of `parseBlankSpace` (`parse.ts`); the countdown is
always supplied larger than the remaining input, so it never cuts the
loop short. -/
def parseBlankSpaceGo : Nat → JSString → Nat → Nat
  | 0, _, off => off
  | fuel + 1, input, off =>
    if isSpaceChar (charAt input off) then parseBlankSpaceGo fuel input (off + 1) else off

/-- `parseBlankSpace` (`parse.ts`): skips blank characters. -/
def parseBlankSpace (input : JSString) (st : PState) : PState :=
  { st with offset := parseBlankSpaceGo (input.length + 1) input st.offset }

/-- The trailing-character loop shared by `parseShorthandName` and
`parseFunctionName`: advances while the predicate holds, returning the
final offset. -/
def scanWhileGo : Nat → (Int → Bool) → JSString → Nat → Nat
  | 0, _, _, off => off
  | fuel + 1, p, input, off =>
    if p (charAt input off) then scanWhileGo fuel p input (off + 1) else off

/-- `parseShorthandName` (`parse.ts`): `name-first *name-char`, returned
as the consumed slice of the input. -/
def parseShorthandName (input : JSString) (st : PState) : PResult JSString :=
  if ¬ isNameFirstChar (charAt input st.offset) then
    (.error ⟨"Expected name", st.offset⟩, st)
  else
    let stop := scanWhileGo (input.length + 1) isNameChar input (st.offset + 1)
    (.ok ((input.drop st.offset).take (stop - st.offset)), { st with offset := stop })

/-- `parseFunctionName` (`parse.ts`): a lowercase letter followed by
lowercase letters, underscores and digits. -/
def parseFunctionName (input : JSString) (st : PState) : PResult JSString :=
  if ¬ isLowercase (charAt input st.offset) then
    (.error ⟨"Expected identifier", st.offset⟩, st)
  else
    let stop := scanWhileGo (input.length + 1) isIdentifierChar input (st.offset + 1)
    (.ok ((input.drop st.offset).take (stop - st.offset)), { st with offset := stop })

/-- The digit-accumulation loop of `parseInt` (`parse.ts`). -/
def parseIntGo : Nat → JSString → Nat → Int → Int × Nat
  | 0, _, off, value => (value, off)
  | fuel + 1, input, off, value =>
    let c := charAt input off
    if isDigit c then parseIntGo fuel input (off + 1) (value * 10 + (c - 0x30))
    else (value, off)

/-- `parseInt` (`parse.ts`): `0`, or an optional `-` followed by a
nonzero digit and further digits.  The accumulated value is exact here;
the host's floating-point accumulation is not modelled. -/
def parseIntJS (input : JSString) (st : PState) : PResult Int :=
  let c := charAt input st.offset
  if c = 0x30 then (.ok 0, bump st)
  else
    let (sign, st) : Int × PState := if c = 0x2d then (-1, bump st) else (1, st)
    let c := charAt input st.offset
    if c < 0x31 ∨ c > 0x39 then (.error ⟨"Expected digit", st.offset⟩, st)
    else
      let (value, stop) := parseIntGo (input.length + 1) input (st.offset + 1) (c - 0x30)
      (.ok (sign * value), { st with offset := stop })

/-- The digit-scanning loop of `parseNumber` (`parse.ts`), accumulating
the digits' value and count. -/
def parseDigitsGo : Nat → JSString → Nat → Nat × Nat → Nat × Nat × Nat
  | 0, _, off, (value, count) => (value, count, off)
  | fuel + 1, input, off, (value, count) =>
    let c := charAt input off
    if isDigit c then
      parseDigitsGo fuel input (off + 1) (value * 10 + (c - 0x30).toNat, count + 1)
    else (value, count, off)

/-- `parseNumber` (`parse.ts`): scans `(int / "-0") [frac] [exp]` exactly
as the source does (in particular, a leading `0` ends the number at
once), and models the host's `Number(slice)` conversion by the exact
decimal value of the scanned slice. -/
def parseNumber (input : JSString) (st : PState) : PResult Rat :=
  let c := charAt input st.offset
  let (neg, st) : Bool × PState := if c = 0x2d then (true, bump st) else (false, st)
  let c := charAt input st.offset
  if c = 0x30 then
    (.ok 0, bump st)
  else if c < 0x31 ∨ c > 0x39 then
    (.error ⟨"Expected digit", st.offset⟩, st)
  else
    let (m, _, off) := parseDigitsGo (input.length + 1) input (st.offset + 1) ((c - 0x30).toNat, 1)
    let st := { st with offset := off }
    -- frac = "." 1*DIGIT
    let fracStep : Except QueryError (Nat × Nat) × PState :=
      if charAt input st.offset = 0x2e then
        let st := bump st
        if ¬ isDigit (charAt input st.offset) then
          (.error ⟨"Expected fractional part", st.offset⟩, st)
        else
          let (m', fracLen, off') := parseDigitsGo (input.length + 1) input st.offset (m, 0)
          (.ok (m', fracLen), { st with offset := off' })
      else (.ok (m, 0), st)
    match fracStep with
    | (.error e, st) => (.error e, st)
    | (.ok (m, fracLen), st) =>
      -- exp = "e" [ "-" / "+" ] 1*DIGIT
      let expStep : Except QueryError (Bool × Nat) × PState :=
        if charAt input st.offset = 0x45 ∨ charAt input st.offset = 0x65 then
          let st := bump st
          let (expNeg, st) : Bool × PState :=
            if charAt input st.offset = 0x2b then (false, bump st)
            else if charAt input st.offset = 0x2d then (true, bump st)
            else (false, st)
          if ¬ isDigit (charAt input st.offset) then
            (.error ⟨"Expected exponent part", st.offset⟩, st)
          else
            let (ev, _, off') := parseDigitsGo (input.length + 1) input st.offset (0, 0)
            (.ok (expNeg, ev), { st with offset := off' })
        else (.ok (false, 0), st)
      match expStep with
      | (.error e, st) => (.error e, st)
      | (.ok (expNeg, ev), st) =>
        let base : Rat := (m : Rat) / ((10 : Rat) ^ fracLen)
        let scaled : Rat := if expNeg then base / ((10 : Rat) ^ ev) else base * ((10 : Rat) ^ ev)
        (.ok (if neg then -scaled else scaled), st)

/-- `parseHexChar` (`parse.ts`), reading one hex digit at a given offset
(the offset advance is accounted for by the caller). -/
def parseHexChar (input : JSString) (off : Nat) : Except QueryError Nat :=
  let c := charAt input off
  if 0x30 ≤ c ∧ c ≤ 0x39 then .ok (c - 0x30).toNat
  else if 0x41 ≤ c ∧ c ≤ 0x46 then .ok (c - 0x37).toNat
  else if 0x61 ≤ c ∧ c ≤ 0x66 then .ok (c - 0x57).toNat
  else .error ⟨"Expected hex digit", off⟩

/-- `parseHexCodePoint` (`parse.ts`): four hex digits starting at `off`;
`parseHexChar` advances the buffer past them, so the post-read offset is
`off + 4`. -/
def parseHexCodePoint (input : JSString) (off : Nat) : Except QueryError Nat := Id.run do
  match parseHexChar input off with
  | .error e => return .error e
  | .ok c0 =>
  match parseHexChar input (off + 1) with
  | .error e => return .error e
  | .ok c1 =>
  match parseHexChar input (off + 2) with
  | .error e => return .error e
  | .ok c2 =>
  match parseHexChar input (off + 3) with
  | .error e => return .error e
  | .ok c3 => return .ok (c0 * 4096 + c1 * 256 + c2 * 16 + c3)

/-- The character loop of `parseStringLiteral` (`parse.ts`).  Note the
faithful reproduction of two quirks of the source: the loop simply ends
(without error) when the input is exhausted before the closing quote,
and after a `\uXXXX` escape the buffer is advanced by four positions a
second time, past the four digits `parseHexChar` already consumed. -/
def parseStringLiteralGo : Nat → JSString → Int → Nat → JSString → Except QueryError JSString × Nat
  | 0, _, _, off, _ => (.error ⟨"String scan fuel exhausted", off⟩, off)
  | fuel + 1, input, quote, off, acc =>
    if off ≥ input.length then (.ok acc, off)
    else
      let c := charAt input off
      if c = quote then (.ok acc, off + 1)
      else if isUnescapedStringChar c ∨ (quote = 0x22 ∧ c = 0x27) ∨ (quote = 0x27 ∧ c = 0x22) then
        parseStringLiteralGo fuel input quote (off + 1) (acc ++ [c.toNat])
      else if c = 0x5c then
        let off := off + 1
        let c2 := charAt input off
        if (quote = 0x22 ∧ c2 = 0x22) ∨ (quote = 0x27 ∧ c2 = 0x27) then
          parseStringLiteralGo fuel input quote (off + 1) (acc ++ [c2.toNat])
        else if c2 = 0x62 then parseStringLiteralGo fuel input quote (off + 1) (acc ++ [0x08])
        else if c2 = 0x66 then parseStringLiteralGo fuel input quote (off + 1) (acc ++ [0x0c])
        else if c2 = 0x6e then parseStringLiteralGo fuel input quote (off + 1) (acc ++ [0x0a])
        else if c2 = 0x72 then parseStringLiteralGo fuel input quote (off + 1) (acc ++ [0x0d])
        else if c2 = 0x74 then parseStringLiteralGo fuel input quote (off + 1) (acc ++ [0x09])
        else if c2 = 0x2f then parseStringLiteralGo fuel input quote (off + 1) (acc ++ [0x2f])
        else if c2 = 0x5c then parseStringLiteralGo fuel input quote (off + 1) (acc ++ [0x5c])
        else if c2 = 0x75 then
          let off := off + 1
          match parseHexCodePoint input off with
          | .error e => (.error e, off)
          | .ok c0 =>
            let off := off + 4  -- advanced by parseHexChar
            if c0 < 0xd800 ∨ c0 > 0xdfff then
              parseStringLiteralGo fuel input quote (off + 4) (acc ++ [c0])
            else if c0 ≤ 0xdbff then
              let off := off + 4
              if off + 2 ≥ input.length ∨ charAt input off ≠ 0x5c ∨ charAt input (off + 1) ≠ 0x75 then
                (.error ⟨"Expected low surrogate", off⟩, off)
              else
                let off := off + 2
                match parseHexCodePoint input off with
                | .error e => (.error e, off)
                | .ok c1 =>
                  let off := off + 4
                  if c1 < 0xdc00 ∨ c1 > 0xdfff then (.error ⟨"Invalid low surrogate", off⟩, off)
                  else parseStringLiteralGo fuel input quote (off + 4) (acc ++ [c0, c1])
            else (.error ⟨"Unexpected low surrogate", off⟩, off)
        else (.error ⟨"Invalid escape sequence", off⟩, off)
      else (.error ⟨"Invalid string literal character", off⟩, off)

/-- `parseStringLiteral` (`parse.ts`): a single- or double-quoted string
literal, returning the decoded code units. -/
def parseStringLiteral (input : JSString) (st : PState) : PResult JSString :=
  let c := charAt input st.offset
  if c = 0x22 ∨ c = 0x27 then
    match parseStringLiteralGo (input.length + 1) input c (st.offset + 1) [] with
    | (.error e, off) => (.error e, { st with offset := off })
    | (.ok s, off) => (.ok s, { st with offset := off })
  else (.error ⟨"Expected string literal", st.offset⟩, st)

/-- `parseComparisonOperator` (`parse.ts`): returns the operator, or
`none` when the next character starts no operator; a lone `=` or `!`
raises. -/
def parseComparisonOperator (input : JSString) (st : PState) :
    PResult (Option ComparisonOperator) :=
  let c := charAt input st.offset
  if c = 0x3d then
    let st := bump st
    if charAt input st.offset ≠ 0x3d then (.error ⟨"Expected comparison operator", st.offset⟩, st)
    else (.ok (some .Equal), bump st)
  else if c = 0x21 then
    let st := bump st
    if charAt input st.offset ≠ 0x3d then (.error ⟨"Expected comparison operator", st.offset⟩, st)
    else (.ok (some .NotEqual), bump st)
  else if c = 0x3c then
    let st := bump st
    if charAt input st.offset ≠ 0x3d then (.ok (some .LessThan), st)
    else (.ok (some .LessThanOrEqual), bump st)
  else if c = 0x3e then
    let st := bump st
    if charAt input st.offset ≠ 0x3d then (.ok (some .GreaterThan), st)
    else (.ok (some .GreaterThanOrEqual), bump st)
  else (.ok none, st)

/-- `checkLogicalType` (`parse.ts`): in a test-expression position a
function call must not return `Value`. -/
def checkLogicalType (e : Expression) (st : PState) : Except QueryError Unit :=
  match e with
  | .function f _ =>
    match f.resultType with
    | .Value => .error ⟨"ValueType function not supported in test expression", st.offset⟩
    | _ => .ok ()
  | _ => .ok ()

/-- `checkComparableType` (`parse.ts`): a comparison side that is a
function call must return `Value`. -/
def checkComparableType (e : Expression) (st : PState) : Except QueryError Unit :=
  match e with
  | .function f _ =>
    match f.resultType with
    | .Value => .ok ()
    | .Logical => .error ⟨"LogicalType function not supported in comparison expression", st.offset⟩
    | .Nodes => .error ⟨"NodesType function not supported in comparison expression", st.offset⟩
  | _ => .ok ()

/-- `checkValueArgumentType` (`parse.ts`). -/
def checkValueArgumentType (f : FunctionExtension) (st : PState) : Except QueryError Unit :=
  match f.resultType with
  | .Value => .ok ()
  | .Logical => .error ⟨"LogicalType function not supported in ValueType argument position", st.offset⟩
  | .Nodes => .error ⟨"NodesType function not supported in ValueType argument position", st.offset⟩

/-- `checkLogicalArgumentType` (`parse.ts`). -/
def checkLogicalArgumentType (f : FunctionExtension) (st : PState) : Except QueryError Unit :=
  match f.resultType with
  | .Value => .error ⟨"ValueType function not supported in LogicalType argument position", st.offset⟩
  | _ => .ok ()

/-- `checkNodesArgumentType` (`parse.ts`). -/
def checkNodesArgumentType (f : FunctionExtension) (st : PState) : Except QueryError Unit :=
  match f.resultType with
  | .Value => .error ⟨"ValueType function not supported in NodesType argument position", st.offset⟩
  | .Logical => .error ⟨"LogicalType function not supported in NodesType argument position", st.offset⟩
  | .Nodes => .ok ()

/-- `checkArgumentType` (`parse.ts`): the per-parameter typing rule for
one function-call argument. -/
def checkArgumentType (parameterType : DeclaredType) (e : Expression) (st : PState) :
    Except QueryError Unit :=
  match e with
  | .function f _ =>
    match parameterType with
    | .Value => checkValueArgumentType f st
    | .Logical => checkLogicalArgumentType f st
    | .Nodes => checkNodesArgumentType f st
  | _ =>
    match parameterType with
    | .Value =>
      match e with
      | .query _ segments =>
        if ¬ isSingularQuery segments then
          .error ⟨"Expected singular query expression in ValueType argument position", st.offset⟩
        else .ok ()
      | .literal _ => .ok ()
      | _ => .error ⟨"Expected literal expression in ValueType argument position", st.offset⟩
    | .Logical =>
      match e with
      | .literal _ =>
        .error ⟨"Expected logical expression in LogicalType argument position", st.offset⟩
      | _ => .ok ()
    | .Nodes =>
      match e with
      | .query _ _ => .ok ()
      | _ => .error ⟨"Expected query expression in NodesType argument position", st.offset⟩

/-- Renders a scanned name (lowercase ASCII) for an error message. -/
def renderName (s : JSString) : String :=
  String.mk (s.map Char.ofNat)

/-- The parse error raised when the parser's fuel is exhausted.  Every
cycle of the mutual grammar consumes input, so the fuel supplied by the
top-level entry points (far above the input length) makes this
unreachable in the computations below. -/
def fuelError (off : Nat) : QueryError :=
  ⟨"Parse fuel exhausted", off⟩

/-- `expr.kind === ExpressionKind.Query && !isSingularQuery(expr)`, the
test guarding the singular-query rule in `parseBasicExpression`
(`parse.ts`). -/
def nonSingularQueryExpr : Expression → Bool
  | .query _ segments => ¬ isSingularQuery segments
  | _ => false

/-- `parseNameSelector` (`parse.ts`): a string-literal name selector. -/
def parseNameSelector (input : JSString) (st : PState) : PResult Selector :=
  match parseStringLiteral input st with
  | (.error e, st') => (.error e, st')
  | (.ok name, st') => (.ok (.name name), st')

/-- `parseWildcardSelector` (`parse.ts`). -/
def parseWildcardSelector (input : JSString) (st : PState) : PResult Selector :=
  if charAt input st.offset ≠ 0x2a then
    (.error ⟨"Expected wildcard selector", st.offset⟩, st)
  else (.ok .wildcard, bump st)

/-- `parseArraySelector` (`parse.ts`): an index selector, or a slice
selector `[start S] ":" S [end S] [":" [S step]]`. -/
def parseArraySelector (input : JSString) (st : PState) : PResult Selector :=
  let c := charAt input st.offset
  let startStep : Except QueryError (Option Int) × PState :=
    if c = 0x2d ∨ isDigit c then
      match parseIntJS input st with
      | (.error e, st') => (.error e, st')
      | (.ok v, st') => (.ok (some v), parseBlankSpace input st')
    else (.ok none, st)
  match startStep with
  | (.error e, st') => (.error e, st')
  | (.ok start_, st) =>
    let c := charAt input st.offset
    if c ≠ 0x3a then
      match start_ with
      | none => (.error ⟨"Expected index selector", st.offset⟩, st)
      | some v => (.ok (.index v), st)
    else
      let st := parseBlankSpace input (bump st)
      let c := charAt input st.offset
      let endStep : Except QueryError (Option Int) × PState :=
        if c = 0x2d ∨ isDigit c then
          match parseIntJS input st with
          | (.error e, st') => (.error e, st')
          | (.ok v, st') => (.ok (some v), parseBlankSpace input st')
        else (.ok none, st)
      match endStep with
      | (.error e, st') => (.error e, st')
      | (.ok end_, st) =>
        let c := charAt input st.offset
        if c = 0x3a then
          let st := parseBlankSpace input (bump st)
          let c := charAt input st.offset
          if c = 0x2d ∨ isDigit c then
            match parseIntJS input st with
            | (.error e, st') => (.error e, st')
            | (.ok v, st') => (.ok (.slice start_ end_ (some v)), st')
          else (.ok (.slice start_ end_ none), st)
        else (.ok (.slice start_ end_ none), st)

/-- The result of the `||` chain (`parse.ts`, `parseOrExpression`): a
single collected operand stays bare, two or more become an `Or`
expression (the source creates the operand array lazily). -/
def orOfOperands : List Expression → Expression
  | [e] => e
  | operands => .or operands

/-- The result of the `&&` chain (`parse.ts`, `parseAndExpression`). -/
def andOfOperands : List Expression → Expression
  | [e] => e
  | operands => .and operands

mutual

/-- `parseSegments` (`parse.ts`): `*(S segment)`, appending each parsed
segment to `segments` until `parseSegment` yields no segment. -/
def parseSegments (fuel : Nat) (input : JSString) (segments : List Segment) (st : PState) :
    PResult (List Segment) :=
  match fuel with
  | 0 => (.error (fuelError st.offset), st)
  | fuel + 1 =>
    let st := parseBlankSpace input st
    match parseSegment fuel input st with
    | (.error e, st') => (.error e, st')
    | (.ok none, st') => (.ok segments, st')
    | (.ok (some segment), st') => parseSegments fuel input (segments ++ [segment]) st'

/-- `parseSegment` (`parse.ts`), the buffer-consuming core (the
whole-string entry point with its trailing-input check is
`parseSegmentString` below): a dot or double-dot segment, a bracketed
selection, or no segment at all when the next character starts none. -/
def parseSegment (fuel : Nat) (input : JSString) (st : PState) : PResult (Option Segment) :=
  match fuel with
  | 0 => (.error (fuelError st.offset), st)
  | fuel + 1 =>
    let c := charAt input st.offset
    if c = 0x2e then
      let st := bump st
      let c := charAt input st.offset
      if c = 0x2e then
        let st := bump st
        let c := charAt input st.offset
        if c = 0x2a then (.ok (some (.descendant [.wildcard])), bump st)
        else if isNameFirstChar c then
          match parseShorthandName input st with
          | (.error e, st') => (.error e, st')
          | (.ok name, st') => (.ok (some (.descendant [.name name])), st')
        else if c ≠ 0x5b then (.error ⟨"Expected bracketed selection", st.offset⟩, st)
        else parseBracketedSelectors fuel input true [] (parseBlankSpace input (bump st))
      else
        if c = 0x2a then (.ok (some (.child [.wildcard])), bump st)
        else if isNameFirstChar c then
          match parseShorthandName input st with
          | (.error e, st') => (.error e, st')
          | (.ok name, st') => (.ok (some (.child [.name name])), st')
        else (.error ⟨"Expected dot segment", st.offset⟩, st)
    else if c = 0x5b then
      parseBracketedSelectors fuel input false [] (parseBlankSpace input (bump st))
    else (.ok none, st)

/-- The bracketed-selection loop of `parseSegment` (`parse.ts`):
`"[" S selector *(S "," S selector) S "]"`, entered just after the `[`
and its following blanks. -/
def parseBracketedSelectors (fuel : Nat) (input : JSString) (descendant : Bool)
    (selectors : List Selector) (st : PState) : PResult (Option Segment) :=
  match fuel with
  | 0 => (.error (fuelError st.offset), st)
  | fuel + 1 =>
    if st.offset < input.length ∧ charAt input st.offset = 0x5d then
      (.ok (some (if descendant then .descendant selectors else .child selectors)), bump st)
    else
      let commaStep : Except QueryError Unit × PState :=
        if selectors.length ≠ 0 then
          if st.offset ≥ input.length ∨ charAt input st.offset ≠ 0x2c then
            (.error ⟨"Expected comma", st.offset⟩, st)
          else (.ok (), parseBlankSpace input (bump st))
        else (.ok (), st)
      match commaStep with
      | (.error e, st') => (.error e, st')
      | (.ok _, st) =>
        match parseSelector fuel input st with
        | (.error e, st') => (.error e, st')
        | (.ok selector, st') =>
          parseBracketedSelectors fuel input descendant (selectors ++ [selector])
            (parseBlankSpace input st')

/-- `parseSelector` (`parse.ts`), the buffer-consuming core: dispatches
on the first character to a name, wildcard, index/slice, or filter
selector. -/
def parseSelector (fuel : Nat) (input : JSString) (st : PState) : PResult Selector :=
  match fuel with
  | 0 => (.error (fuelError st.offset), st)
  | fuel + 1 =>
    let c := charAt input st.offset
    if c = 0x22 ∨ c = 0x27 then parseNameSelector input st
    else if c = 0x2a then parseWildcardSelector input st
    else if c = 0x2d ∨ isDigit c ∨ c = 0x3a then parseArraySelector input st
    else if c = 0x3f then parseFilterSelector fuel input st
    else (.error ⟨"Expected selector", st.offset⟩, st)

/-- `parseFilterSelector` (`parse.ts`): `"?" S logical-expr`, setting
`queryScope` to `Expression` around the expression parse and restoring
it on both normal and error exit. -/
def parseFilterSelector (fuel : Nat) (input : JSString) (st : PState) : PResult Selector :=
  match fuel with
  | 0 => (.error (fuelError st.offset), st)
  | fuel + 1 =>
    if st.offset ≥ input.length ∨ charAt input st.offset ≠ 0x3f then
      (.error ⟨"Expected filter selector", st.offset⟩, st)
    else
      let st := parseBlankSpace input (bump st)
      let savedScope := st.context.queryScope
      let st := { st with context := { st.context with queryScope := some .Expression } }
      match parseExpression fuel input st with
      | (.error e, st') =>
        (.error e, { st' with context := { st'.context with queryScope := savedScope } })
      | (.ok e, st') =>
        (.ok (.filter e), { st' with context := { st'.context with queryScope := savedScope } })

/-- `parseExpression` (`parse.ts`), the buffer-consuming core:
`logical-expr = logical-or-expr`. -/
def parseExpression (fuel : Nat) (input : JSString) (st : PState) : PResult Expression :=
  match fuel with
  | 0 => (.error (fuelError st.offset), st)
  | fuel + 1 => parseOrExpression fuel input st

/-- `parseOrExpression` (`parse.ts`):
`logical-or-expr = logical-and-expr *(S "||" S logical-and-expr)`. -/
def parseOrExpression (fuel : Nat) (input : JSString) (st : PState) : PResult Expression :=
  match fuel with
  | 0 => (.error (fuelError st.offset), st)
  | fuel + 1 =>
    match parseAndExpression fuel input st with
    | (.error e, st') => (.error e, st')
    | (.ok first, st') => parseOrRest fuel input [first] st'

/-- The `*(S "||" S logical-and-expr)` loop of `parseOrExpression`
(`parse.ts`); a single operand stays bare, two or more become an
`Or` expression, as in the source's lazy array creation. -/
def parseOrRest (fuel : Nat) (input : JSString) (operands : List Expression) (st : PState) :
    PResult Expression :=
  match fuel with
  | 0 => (.error (fuelError st.offset), st)
  | fuel + 1 =>
    let st := parseBlankSpace input st
    if st.offset ≥ input.length ∨ charAt input st.offset ≠ 0x7c then
      (.ok (orOfOperands operands), st)
    else
      let st := bump st
      if st.offset ≥ input.length ∨ charAt input st.offset ≠ 0x7c then
        (.error ⟨"Expected || operator", st.offset⟩, st)
      else
        let st := parseBlankSpace input (bump st)
        match parseAndExpression fuel input st with
        | (.error e, st') => (.error e, st')
        | (.ok operand, st') => parseOrRest fuel input (operands ++ [operand]) st'

/-- `parseAndExpression` (`parse.ts`):
`logical-and-expr = basic-expr *(S "&&" S basic-expr)`. -/
def parseAndExpression (fuel : Nat) (input : JSString) (st : PState) : PResult Expression :=
  match fuel with
  | 0 => (.error (fuelError st.offset), st)
  | fuel + 1 =>
    match parseBasicExpression fuel input st with
    | (.error e, st') => (.error e, st')
    | (.ok first, st') => parseAndRest fuel input [first] st'

/-- The `*(S "&&" S basic-expr)` loop of `parseAndExpression`
(`parse.ts`). -/
def parseAndRest (fuel : Nat) (input : JSString) (operands : List Expression) (st : PState) :
    PResult Expression :=
  match fuel with
  | 0 => (.error (fuelError st.offset), st)
  | fuel + 1 =>
    let st := parseBlankSpace input st
    if st.offset ≥ input.length ∨ charAt input st.offset ≠ 0x26 then
      (.ok (andOfOperands operands), st)
    else
      let st := bump st
      if st.offset ≥ input.length ∨ charAt input st.offset ≠ 0x26 then
        (.error ⟨"Expected && operator", st.offset⟩, st)
      else
        let st := parseBlankSpace input (bump st)
        match parseBasicExpression fuel input st with
        | (.error e, st') => (.error e, st')
        | (.ok operand, st') => parseAndRest fuel input (operands ++ [operand]) st'

/-- `parseBasicExpression` (`parse.ts`): an optional `!`, then a
parenthesized expression or a comparable optionally followed by a
comparison; enforces the singular-query and comparable-type rules on
both comparison sides and the logical-type rule on test expressions
(suspended inside an `Argument` scope). -/
def parseBasicExpression (fuel : Nat) (input : JSString) (st : PState) : PResult Expression :=
  match fuel with
  | 0 => (.error (fuelError st.offset), st)
  | fuel + 1 =>
    let (hasNot, st) : Bool × PState :=
      if st.offset < input.length ∧ charAt input st.offset = 0x21 then
        (true, parseBlankSpace input (bump st))
      else (false, st)
    let inner : PResult Expression :=
      if charAt input st.offset = 0x28 then parseParenExpression fuel input st
      else
        match parseComparable fuel input st with
        | (.error e, st') => (.error e, st')
        | (.ok e, st') =>
          let exprOffset := st'.offset
          if ¬ hasNot then
            let st1 := parseBlankSpace input st'
            match parseComparisonOperator input st1 with
            | (.error er, st2) => (.error er, st2)
            | (.ok (some operator), st2) =>
              let st2 := parseBlankSpace input st2
              if nonSingularQueryExpr e then
                (.error ⟨"Only singular queries can be compared", exprOffset⟩, st2)
              else
                match checkComparableType e st2 with
                | .error er => (.error er, st2)
                | .ok _ =>
                  match parseComparable fuel input st2 with
                  | (.error er, st3) => (.error er, st3)
                  | (.ok rhs, st3) =>
                    if nonSingularQueryExpr rhs then
                      (.error ⟨"Only singular queries can be compared", st3.offset⟩, st3)
                    else
                      match checkComparableType rhs st3 with
                      | .error er => (.error er, st3)
                      | .ok _ => (.ok (.comparison e operator rhs), st3)
            | (.ok none, st2) =>
              if st2.context.queryScope ≠ some .Argument then
                match checkLogicalType e st2 with
                | .error er => (.error er, st2)
                | .ok _ => (.ok e, st2)
              else (.ok e, st2)
          else
            if st'.context.queryScope ≠ some .Argument then
              match checkLogicalType e st' with
              | .error er => (.error er, st')
              | .ok _ => (.ok e, st')
            else (.ok e, st')
    match inner with
    | (.error e, st') => (.error e, st')
    | (.ok e, st') => (.ok (if hasNot then .not e else e), st')

/-- `parseParenExpression` (`parse.ts`):
`"(" S logical-expr S ")"`. -/
def parseParenExpression (fuel : Nat) (input : JSString) (st : PState) : PResult Expression :=
  match fuel with
  | 0 => (.error (fuelError st.offset), st)
  | fuel + 1 =>
    if st.offset ≥ input.length ∨ charAt input st.offset ≠ 0x28 then
      (.error ⟨"Expected open parenthesis", st.offset⟩, st)
    else
      let st := parseBlankSpace input (bump st)
      match parseExpression fuel input st with
      | (.error e, st') => (.error e, st')
      | (.ok e, st') =>
        let st' := parseBlankSpace input st'
        if st'.offset ≥ input.length ∨ charAt input st'.offset ≠ 0x29 then
          (.error ⟨"Expected close parenthesis", st'.offset⟩, st')
        else (.ok e, bump st')

/-- `parseComparable` (`parse.ts`):
`comparable = literal / singular-query / function-expr` — a `@`- or
`$`-rooted filter query, a string/number literal, `true`/`false`/`null`,
or a function call resolved against the context's extension registry. -/
def parseComparable (fuel : Nat) (input : JSString) (st : PState) : PResult Expression :=
  match fuel with
  | 0 => (.error (fuelError st.offset), st)
  | fuel + 1 =>
    let c := charAt input st.offset
    if c = 0x40 then
      match parseSegments fuel input [] (bump st) with
      | (.error e, st') => (.error e, st')
      | (.ok segments, st') => (.ok (.query .atSign segments), st')
    else if c = 0x24 then
      match parseSegments fuel input [] (bump st) with
      | (.error e, st') => (.error e, st')
      | (.ok segments, st') => (.ok (.query .dollar segments), st')
    else if c = 0x22 ∨ c = 0x27 then
      match parseStringLiteral input st with
      | (.error e, st') => (.error e, st')
      | (.ok v, st') => (.ok (.literal (.str v)), st')
    else if c = 0x2d ∨ isDigit c then
      match parseNumber input st with
      | (.error e, st') => (.error e, st')
      | (.ok q, st') => (.ok (.literal (.num q)), st')
    else if ¬ isLowercase c then (.error ⟨"Expected comparable expression", st.offset⟩, st)
    else
      match parseFunctionName input st with
      | (.error e, st') => (.error e, st')
      | (.ok name, st') =>
        if name = jstr "true" then (.ok (.literal (.bool true)), st')
        else if name = jstr "false" then (.ok (.literal (.bool false)), st')
        else if name = jstr "null" then (.ok (.literal .null), st')
        else
          match lookupExtension st'.context.functionExtensions name with
          | none =>
            (.error ⟨"Unknown function " ++ "\"" ++ renderName name ++ "\"", st'.offset⟩, st')
          | some func => parseFunctionArguments fuel input func st'

/-- `parseFunctionArguments` (`parse.ts`): the argument list of a
function call, with the exact-arity check after the loop. -/
def parseFunctionArguments (fuel : Nat) (input : JSString) (func : FunctionExtension)
    (st : PState) : PResult Expression :=
  match fuel with
  | 0 => (.error (fuelError st.offset), st)
  | fuel + 1 =>
    if st.offset ≥ input.length ∨ charAt input st.offset ≠ 0x28 then
      (.error ⟨"Expected function arguments", st.offset⟩, st)
    else
      let st := parseBlankSpace input (bump st)
      match parseFunctionArgumentsRest fuel input func [] st with
      | (.error e, st') => (.error e, st')
      | (.ok args, st') =>
        if args.length ≠ func.parameterTypes.length then
          (.error ⟨"Expected " ++ toString func.parameterTypes.length ++
                   " arguments for function " ++ renderName func.name ++
                   ", but received " ++ toString args.length ++ " arguments", st'.offset⟩, st')
        else (.ok (.function func args), st')

/-- The argument loop of `parseFunctionArguments` (`parse.ts`): stops at
`)` (consuming it) or, after consuming a separator comma, as soon as as
many arguments as declared parameters have been collected (leaving the
rest of the input in place); each argument is parsed in `Argument` scope
(restored on every exit) and checked against its declared parameter
type. -/
def parseFunctionArgumentsRest (fuel : Nat) (input : JSString) (func : FunctionExtension)
    (args : List Expression) (st : PState) : PResult (List Expression) :=
  match fuel with
  | 0 => (.error (fuelError st.offset), st)
  | fuel + 1 =>
    if st.offset < input.length ∧ charAt input st.offset = 0x29 then (.ok args, bump st)
    else
      let commaStep : Except QueryError Unit × PState :=
        if args.length ≠ 0 then
          if st.offset ≥ input.length ∨ charAt input st.offset ≠ 0x2c then
            (.error ⟨"Expected comma", st.offset⟩, st)
          else (.ok (), parseBlankSpace input (bump st))
        else (.ok (), st)
      match commaStep with
      | (.error e, st') => (.error e, st')
      | (.ok _, st) =>
        if args.length ≥ func.parameterTypes.length then (.ok args, st)
        else
          let savedScope := st.context.queryScope
          let st := { st with context := { st.context with queryScope := some .Argument } }
          match parseExpression fuel input st with
          | (.error e, st') =>
            (.error e, { st' with context := { st'.context with queryScope := savedScope } })
          | (.ok arg, st') =>
            let st' := { st' with context := { st'.context with queryScope := savedScope } }
            match checkArgumentType (func.parameterTypes.getD args.length .Value) arg st' with
            | .error e => (.error e, st')
            | .ok _ =>
              parseFunctionArgumentsRest fuel input func (args ++ [arg])
                (parseBlankSpace input st')

end

/-- The fuel supplied by the whole-string entry points: far above the
input length, so that the parser can never exhaust it (every cycle
through the mutually recursive grammar consumes at least one input
character, and a cycle decrements the fuel a bounded number of times). -/
def parseFuel (input : JSString) : Nat :=
  32 * input.length + 32

/-- `parseQuery` (`parse.ts`), the whole-string entry point: a leading
`$`, then segments, then the entire input must have been consumed. -/
def parseQuery (context : QueryContext) (input : JSString) : Except QueryError Query :=
  if charAt input 0 ≠ 0x24 then
    .error ⟨"Expected root identifier (\"$\")", 0⟩
  else
    match parseSegments (parseFuel input) input [] ⟨1, context⟩ with
    | (.error e, _) => .error e
    | (.ok segments, st') =>
      if st'.offset ≠ input.length then .error ⟨"Invalid JSONPath query", st'.offset⟩
      else .ok ⟨segments⟩

/-- `parseSegment` (`parse.ts`), the whole-string entry point (the
non-`try` variant): parses one segment and then requires the entire
input to have been consumed; an input that starts no segment at all
yields `none` (`undefined`). -/
def parseSegmentString (context : QueryContext) (input : JSString) :
    Except QueryError (Option Segment) :=
  match parseSegment (parseFuel input) input ⟨0, context⟩ with
  | (.error e, _) => .error e
  | (.ok segment, st') =>
    if st'.offset ≠ input.length then .error ⟨"Invalid JSONPath segment", st'.offset⟩
    else .ok segment

/-! ## Formatter (`parse.ts`, serialization half) -/

/-- The digit loop of decimal rendering (`String(n)` on a natural). -/
def natDigitsGo : Nat → Nat → JSString → JSString
  | 0, _, acc => acc
  | _, 0, acc => acc
  | fuel + 1, n, acc => natDigitsGo fuel (n / 10) ((0x30 + n % 10) :: acc)

/-- Decimal rendering of a natural number. -/
def natToDecimal (n : Nat) : JSString :=
  if n = 0 then [0x30] else natDigitsGo (n + 1) n []

/-- `String(i)` on an integer: decimal rendering with a `-` sign. -/
def intToDecimal (i : Int) : JSString :=
  if i < 0 then 0x2d :: natToDecimal i.natAbs else natToDecimal i.natAbs

/-- `c.toString(16).padStart(4, "0")`: four lowercase hex digits. -/
def toHex4 (n : Nat) : JSString :=
  let nib := fun (k : Nat) => if k < 10 then 0x30 + k else 0x57 + k
  [nib (n / 4096 % 16), nib (n / 256 % 16), nib (n / 16 % 16), nib (n % 16)]

/-- Modelled from the spec: the host's `JSON.stringify` rendering of a
number, as the exact decimal expansion of the rational (every number the
parser produces has a finite decimal expansion; the host's switch to
exponent notation at extreme magnitudes is not modelled). -/
def ratToDecimal (q : Rat) : JSString :=
  let sign : JSString := if q < 0 then [0x2d] else []
  let den := q.den
  let k := ((List.range 65).find? (fun k => (10 : Nat) ^ k % den == 0)).getD 0
  let scaled := q.num.natAbs * ((10 : Nat) ^ k / den)
  let digits := natToDecimal scaled
  if k = 0 then sign ++ digits
  else
    let ds := if digits.length ≤ k then List.replicate (k + 1 - digits.length) 0x30 ++ digits
              else digits
    sign ++ ds.take (ds.length - k) ++ [0x2e] ++ ds.drop (ds.length - k)

/-- `formatStringLiteral` (`parse.ts`): single-quoted, `"` left bare,
short escapes for the escapable characters, `\uXXXX` for every other
UTF-16 code unit. -/
def formatStringLiteral (value : JSString) : JSString :=
  [0x27] ++
  (value.flatMap fun c =>
    if isUnescapedStringChar (c : Int) ∨ (c : Int) = 0x22 then [c]
    else if c = 0x27 then [0x5c, 0x27]
    else if c = 0x08 then [0x5c, 0x62]
    else if c = 0x0c then [0x5c, 0x66]
    else if c = 0x0a then [0x5c, 0x6e]
    else if c = 0x0d then [0x5c, 0x72]
    else if c = 0x09 then [0x5c, 0x74]
    else if c = 0x2f then [0x5c, 0x2f]
    else if c = 0x5c then [0x5c, 0x5c]
    else [0x5c, 0x75] ++ toHex4 c) ++
  [0x27]

/-- `isValidShorthandName` (`parse.ts`). -/
def isValidShorthandName (name : JSString) : Bool :=
  match name with
  | [] => false
  | c :: rest => isNameFirstChar (c : Int) && rest.all (fun c => isNameChar (c : Int))

/-- Modelled from the spec: the member-string rendering of the host's
`JSON.stringify` (double quotes; `\"`, `\\` and the short control
escapes; `\uXXXX` for other control characters). -/
def jsonStringifyString (s : JSString) : JSString :=
  [0x22] ++
  (s.flatMap fun c =>
    if c = 0x22 then [0x5c, 0x22]
    else if c = 0x5c then [0x5c, 0x5c]
    else if c = 0x08 then [0x5c, 0x62]
    else if c = 0x0c then [0x5c, 0x66]
    else if c = 0x0a then [0x5c, 0x6e]
    else if c = 0x0d then [0x5c, 0x72]
    else if c = 0x09 then [0x5c, 0x74]
    else if c < 0x20 then [0x5c, 0x75] ++ toHex4 c
    else [c]) ++
  [0x22]

mutual

/-- Modelled from the spec: the host's `JSON.stringify` on a JSON
value (used by `formatLiteralExpression` for non-string literals). -/
def jsonStringify : JSON → JSString
  | .null => jstr "null"
  | .bool true => jstr "true"
  | .bool false => jstr "false"
  | .num q => ratToDecimal q
  | .str s => jsonStringifyString s
  | .arr elements => [0x5b] ++ jsonStringifyList elements ++ [0x5d]
  | .obj members => [0x7b] ++ jsonStringifyMembers members ++ [0x7d]

/-- Comma-separated `JSON.stringify` of array elements. -/
def jsonStringifyList : List JSON → JSString
  | [] => []
  | [x] => jsonStringify x
  | x :: xs => jsonStringify x ++ [0x2c] ++ jsonStringifyList xs

/-- Comma-separated `JSON.stringify` of object members. -/
def jsonStringifyMembers : List (JSString × JSON) → JSString
  | [] => []
  | [(k, v)] => jsonStringifyString k ++ [0x3a] ++ jsonStringify v
  | (k, v) :: ms => jsonStringifyString k ++ [0x3a] ++ jsonStringify v ++ [0x2c] ++
      jsonStringifyMembers ms

end

/-- `formatLiteralExpression` (`parse.ts`): strings use the single-quoted
escape form, everything else the host's `JSON.stringify`. -/
def formatLiteralExpression (value : JSON) : JSString :=
  match value with
  | .str s => formatStringLiteral s
  | v => jsonStringify v

/-- The operator spelling of `formatComparisonExpression` (`parse.ts`),
with its single surrounding spaces. -/
def comparisonOperatorString : ComparisonOperator → JSString
  | .Equal => jstr " == "
  | .NotEqual => jstr " != "
  | .LessThan => jstr " < "
  | .LessThanOrEqual => jstr " <= "
  | .GreaterThan => jstr " > "
  | .GreaterThanOrEqual => jstr " >= "

mutual

/-- `formatSegment` (`parse.ts`). -/
def formatSegment : Segment → JSString
  | .child selectors => formatChildSegment selectors
  | .descendant selectors => formatDescendantSegment selectors
termination_by seg => (sizeOf seg, 0)

/-- `formatChildSegment` (`parse.ts`): `.name` / `.*` shorthand for a
single shorthand-spellable name or wildcard selector, bracketed form
otherwise. -/
def formatChildSegment (selectors : List Selector) : JSString :=
  let shorthand : Option JSString :=
    match selectors with
    | [Selector.name n] => if isValidShorthandName n then some ([0x2e] ++ n) else none
    | [Selector.wildcard] => some (jstr ".*")
    | _ => none
  match shorthand with
  | some s => s
  | none => [0x5b] ++ formatSelectorList selectors ++ [0x5d]
termination_by (sizeOf selectors, 2)

/-- `formatDescendantSegment` (`parse.ts`): `..name` / `..*` shorthand,
`..[...]` otherwise. -/
def formatDescendantSegment (selectors : List Selector) : JSString :=
  let shorthand : Option JSString :=
    match selectors with
    | [Selector.name n] => if isValidShorthandName n then some (jstr ".." ++ n) else none
    | [Selector.wildcard] => some (jstr "..*")
    | _ => none
  match shorthand with
  | some s => s
  | none => jstr "..[" ++ formatSelectorList selectors ++ [0x5d]
termination_by (sizeOf selectors, 2)

/-- The `", "`-separated selector loop of the bracketed segment forms
(`parse.ts`). -/
def formatSelectorList : List Selector → JSString
  | [] => []
  | [s] => formatSelector s
  | s :: rest => formatSelector s ++ jstr ", " ++ formatSelectorList rest
termination_by selectors => (sizeOf selectors, 1)

/-- `formatSelector` (`parse.ts`). -/
def formatSelector : Selector → JSString
  | .name n => formatStringLiteral n
  | .wildcard => [0x2a]
  | .index i => intToDecimal i
  | .slice start_ end_ step =>
    (match start_ with | some v => intToDecimal v | none => []) ++ [0x3a] ++
    (match end_ with | some v => intToDecimal v | none => []) ++
    (match step with | some v => [0x3a] ++ intToDecimal v | none => [])
  | .filter e => formatFilterSelector e
termination_by sel => (sizeOf sel, 0)

/-- `formatFilterSelector` (`parse.ts`): `"?" + formatExpression`. -/
def formatFilterSelector (e : Expression) : JSString :=
  [0x3f] ++ formatExpression e
termination_by (sizeOf e, 3)

/-- `formatExpression` (`parse.ts`). -/
def formatExpression : Expression → JSString
  | .or operands => formatOrExpression operands
  | .and operands => formatAndExpression operands
  | .comparison lhs operator rhs => formatComparisonExpression lhs operator rhs
  | .not operand => formatNotExpression operand
  | .query identifier segments => formatQueryExpression identifier segments
  | .literal v => formatLiteralExpression v
  | .function f args => formatFunctionExpression f args
termination_by e => (sizeOf e, 0)

/-- `formatOrExpression` (`parse.ts`): operands joined by `" || "`, each
parenthesized at minimum precedence 1. -/
def formatOrExpression : List Expression → JSString
  | [] => []
  | [e] => parenthesizeExpression e 1
  | e :: rest => parenthesizeExpression e 1 ++ jstr " || " ++ formatOrExpression rest
termination_by operands => (sizeOf operands, 2)

/-- `formatAndExpression` (`parse.ts`): `" && "`, minimum precedence 2. -/
def formatAndExpression : List Expression → JSString
  | [] => []
  | [e] => parenthesizeExpression e 2
  | e :: rest => parenthesizeExpression e 2 ++ jstr " && " ++ formatAndExpression rest
termination_by operands => (sizeOf operands, 2)

/-- `formatComparisonExpression` (`parse.ts`): both sides parenthesized
at minimum precedence 3 around the spaced operator. -/
def formatComparisonExpression (lhs : Expression) (operator : ComparisonOperator)
    (rhs : Expression) : JSString :=
  parenthesizeExpression lhs 3 ++ comparisonOperatorString operator ++
    parenthesizeExpression rhs 3
termination_by (sizeOf lhs + sizeOf rhs, 0)
decreasing_by
  · apply Prod.Lex.left
    have h : 0 < sizeOf rhs := by cases rhs <;> simp_arith
    omega
  · apply Prod.Lex.left
    have h : 0 < sizeOf lhs := by cases lhs <;> simp_arith
    omega

/-- `formatNotExpression` (`parse.ts`): `"!"` then the operand
parenthesized at minimum precedence 4. -/
def formatNotExpression (operand : Expression) : JSString :=
  [0x21] ++ parenthesizeExpression operand 4
termination_by (sizeOf operand, 2)

/-- `formatQueryExpression` (`parse.ts`): the identifier then the
segments. -/
def formatQueryExpression (identifier : QueryIdentifier) (segments : List Segment) : JSString :=
  (match identifier with | .dollar => [0x24] | .atSign => [0x40]) ++
    formatSegmentList segments
termination_by (sizeOf segments, 2)

/-- The segment concatenation loop of `formatQuery` and
`formatQueryExpression` (`parse.ts`). -/
def formatSegmentList : List Segment → JSString
  | [] => []
  | seg :: rest => formatSegment seg ++ formatSegmentList rest
termination_by segments => (sizeOf segments, 1)

/-- `formatFunctionExpression` (`parse.ts`): the function name and the
`", "`-separated argument list. -/
def formatFunctionExpression (f : FunctionExtension) (args : List Expression) : JSString :=
  f.name ++ [0x28] ++ formatArgList args ++ [0x29]
termination_by (sizeOf args, 2)

/-- The argument loop of `formatFunctionExpression` (`parse.ts`). -/
def formatArgList : List Expression → JSString
  | [] => []
  | [e] => formatExpression e
  | e :: rest => formatExpression e ++ jstr ", " ++ formatArgList rest
termination_by args => (sizeOf args, 1)

/-- `parenthesizeExpression` (`parse.ts`): wraps the formatted operand in
parentheses exactly when its precedence is strictly below the required
minimum. -/
def parenthesizeExpression (e : Expression) (requiredPrecedence : Nat) : JSString :=
  if getExpressionPrecedence e < requiredPrecedence then
    [0x28] ++ formatExpression e ++ [0x29]
  else formatExpression e
termination_by (sizeOf e, 1)

end

/-- `formatQuery` (`parse.ts`): `$` followed by the formatted segments. -/
def formatQuery (query : Query) : JSString :=
  [0x24] ++ formatSegmentList query.segments

/-! ## Evaluator (the evaluation module of the package) -/

/-- The outcome of an evaluation step: an `Except`-valued result (a
thrown `TypeError` propagates as `.error`) paired with the context left
behind. -/
abbrev EvalResult (α : Type) := Except String α × QueryContext

/-- `evaluateNameSelector`: the member's value when the node has one. -/
def evaluateNameSelector (name : JSString) (node : JSON) : List JSON :=
  match getChild node name with
  | some child => [child]
  | none => []

/-- `evaluateWildcardSelector`: all children in order. -/
def evaluateWildcardSelector (node : JSON) : List JSON :=
  getChildren node

/-- `evaluateIndexSelector`: a negative index is offset by the array
length; an index landing outside the array (or a non-array node) yields
nothing. -/
def evaluateIndexSelector (i : Int) (node : JSON) : List JSON :=
  match node with
  | .arr elements =>
    let index := if i < 0 then i + elements.length else i
    if index < 0 then []
    else
      match elements[index.toNat]? with
      | some child => [child]
      | none => []
  | _ => []

/-- The ascending iteration `for (let i = lower; i < upper; i += step)`
of `evaluateSliceSelector`. -/
def sliceIndicesUp (i upper : Int) (s : Nat) : List Int :=
  if i < upper ∧ 0 < s then i :: sliceIndicesUp (i + s) upper s else []
termination_by (upper - i).toNat
decreasing_by simp_wf; omega

/-- The descending iteration `for (let i = upper; i > lower; i += step)`
(with negative step) of `evaluateSliceSelector`. -/
def sliceIndicesDown (i lower : Int) (s : Nat) : List Int :=
  if i > lower ∧ 0 < s then i :: sliceIndicesDown (i - s) lower s else []
termination_by (i - lower).toNat
decreasing_by simp_wf; omega

/-- `evaluateSliceSelector`: RFC 9535 slice semantics exactly as the
source computes them (defaults, normalization of negative bounds,
clamping, and the two iteration directions). -/
def evaluateSliceSelector (start_ end_ step : Option Int) (node : JSON) : List JSON :=
  match node with
  | .arr elements =>
    let len : Int := elements.length
    let s : Int := if len ≠ 0 then step.getD 1 else 0
    if s > 0 then
      let start0 := start_.getD 0
      let end0 := end_.getD len
      let start1 := if start0 ≥ 0 then start0 else len + start0
      let end1 := if end0 ≥ 0 then end0 else len + end0
      let lower := min (max start1 0) len
      let upper := min (max end1 0) len
      (sliceIndicesUp lower upper s.toNat).map (fun i => elements.getD i.toNat .null)
    else if s < 0 then
      let start0 := start_.getD (len - 1)
      let end0 := end_.getD (-len - 1)
      let start1 := if start0 ≥ 0 then start0 else len + start0
      let end1 := if end0 ≥ 0 then end0 else len + end0
      let upper := min (max start1 (-1)) (len - 1)
      let lower := min (max end1 (-1)) (len - 1)
      (sliceIndicesDown upper lower (-s).toNat).map (fun i => elements.getD i.toNat .null)
    else []
  | _ => []

/-- `singularValue` (`function.ts`): the single node of a one-element
nodelist, Nothing otherwise. -/
def singularValue (nodes : List JSON) : ValueType :=
  match nodes with
  | [x] => some x
  | _ => none

/-- `existenceTest`: the nodelist is non-empty. -/
def existenceTest (nodes : List JSON) : Bool :=
  nodes.length != 0

/-- `valueTypeList`: a `ValueType` as a nodelist (`[v]`, or `[]` for
Nothing). -/
def valueTypeList (value : ValueType) : List JSON :=
  match value with
  | some v => [v]
  | none => []

/-- `evaluateLiteralExpression`: the literal's value as a one-element
nodelist. -/
def evaluateLiteralExpression (value : JSON) : List JSON :=
  [value]

/-- The error raised when a function extension's runtime result does not
match its declared result type.  The TypeScript union is untagged, so
the source has no such check; the data-model invariant (`evaluate`
returns a value whose runtime kind matches `resultType`) makes this
unreachable for conforming extensions, and every intrinsic conforms. -/
def resultTypeMismatch : String :=
  "Function extension result does not match its declared result type"

mutual

/-- The `for (const segment of segments) nodes = evaluateSegment(...)`
loop shared by `evaluateQuery` and `evaluateQueryExpression`. -/
def evalSegmentList (segments : List Segment) (nodes : List JSON) (context : QueryContext) :
    EvalResult (List JSON) :=
  match segments with
  | [] => (.ok nodes, context)
  | segment :: rest =>
    match evaluateSegment segment nodes context with
    | (.error e, c) => (.error e, c)
    | (.ok nodes', c) => evalSegmentList rest nodes' c
termination_by (sizeOf segments, 1, 0)

/-- `evaluateSegment`: dispatch on the segment kind. -/
def evaluateSegment (segment : Segment) (nodes : List JSON) (context : QueryContext) :
    EvalResult (List JSON) :=
  match segment with
  | .child selectors => evaluateChildSegment selectors nodes context
  | .descendant selectors => evaluateDescendantSegment selectors nodes context
termination_by (sizeOf segment, 0, 0)

/-- `evaluateChildSegment`: one output nodelist, pushed to across the
selector-major double loop. -/
def evaluateChildSegment (selectors : List Selector) (nodes : List JSON)
    (context : QueryContext) : EvalResult (List JSON) :=
  evalChildSelectorsLoop selectors nodes [] context
termination_by (sizeOf selectors, 3, 0)

/-- The outer (selector) loop of `evaluateChildSegment`. -/
def evalChildSelectorsLoop (selectors : List Selector) (nodes : List JSON) (output : List JSON)
    (context : QueryContext) : EvalResult (List JSON) :=
  match selectors with
  | [] => (.ok output, context)
  | selector :: rest =>
    match evalChildNodesLoop selector nodes output context with
    | (.error e, c) => (.error e, c)
    | (.ok output', c) => evalChildSelectorsLoop rest nodes output' c
termination_by (sizeOf selectors, 2, 0)

/-- The inner (node) loop of `evaluateChildSegment`:
`output.push(...evaluateSelector(selector, node, context))`. -/
def evalChildNodesLoop (selector : Selector) (nodes : List JSON) (output : List JSON)
    (context : QueryContext) : EvalResult (List JSON) :=
  match nodes with
  | [] => (.ok output, context)
  | node :: rest =>
    match evaluateSelector selector node context with
    | (.error e, c) => (.error e, c)
    | (.ok found, c) => evalChildNodesLoop selector rest (output ++ found) c
termination_by (sizeOf selector, 1, nodes.length)

/-- `evaluateDescendantSegment`: for each input node apply every selector
to the node itself and then to each of its descendants in pre-order; an
empty selector list produces an empty nodelist. -/
def evaluateDescendantSegment (selectors : List Selector) (nodes : List JSON)
    (context : QueryContext) : EvalResult (List JSON) :=
  if selectors.length = 0 then (.ok [], context)
  else evalDescendantNodesLoop selectors nodes [] context
termination_by (sizeOf selectors, 6, 0)

/-- The outer (node) loop of `evaluateDescendantSegment`. -/
def evalDescendantNodesLoop (selectors : List Selector) (nodes : List JSON) (output : List JSON)
    (context : QueryContext) : EvalResult (List JSON) :=
  match nodes with
  | [] => (.ok output, context)
  | node :: rest =>
    match evalSelectorsOnNode selectors node output context with
    | (.error e, c) => (.error e, c)
    | (.ok output1, c1) =>
      match evalDescendantsLoop selectors (getDescendants node) output1 c1 with
      | (.error e, c) => (.error e, c)
      | (.ok output2, c2) => evalDescendantNodesLoop selectors rest output2 c2
termination_by (sizeOf selectors, 5, nodes.length)

/-- The descendants loop of `evaluateDescendantSegment`. -/
def evalDescendantsLoop (selectors : List Selector) (descendants : List JSON)
    (output : List JSON) (context : QueryContext) : EvalResult (List JSON) :=
  match descendants with
  | [] => (.ok output, context)
  | d :: rest =>
    match evalSelectorsOnNode selectors d output context with
    | (.error e, c) => (.error e, c)
    | (.ok output', c) => evalDescendantsLoop selectors rest output' c
termination_by (sizeOf selectors, 4, descendants.length)

/-- The per-node selector loop of `evaluateDescendantSegment`. -/
def evalSelectorsOnNode (selectors : List Selector) (node : JSON) (output : List JSON)
    (context : QueryContext) : EvalResult (List JSON) :=
  match selectors with
  | [] => (.ok output, context)
  | selector :: rest =>
    match evaluateSelector selector node context with
    | (.error e, c) => (.error e, c)
    | (.ok found, c) => evalSelectorsOnNode rest node (output ++ found) c
termination_by (sizeOf selectors, 2, 0)

/-- `evaluateSelector`: dispatch on the selector kind. -/
def evaluateSelector (selector : Selector) (node : JSON) (context : QueryContext) :
    EvalResult (List JSON) :=
  match selector with
  | .name n => (.ok (evaluateNameSelector n node), context)
  | .wildcard => (.ok (evaluateWildcardSelector node), context)
  | .index i => (.ok (evaluateIndexSelector i node), context)
  | .slice start_ end_ step => (.ok (evaluateSliceSelector start_ end_ step node), context)
  | .filter e => evaluateFilterSelector e node context
termination_by (sizeOf selector, 0, 0)

/-- `evaluateFilterSelector`: keep each child of the node for which the
filter expression evaluates to true. -/
def evaluateFilterSelector (e : Expression) (node : JSON) (context : QueryContext) :
    EvalResult (List JSON) :=
  evalFilterChildrenLoop e (getChildren node) [] context
termination_by (sizeOf e, 9, 0)

/-- The child loop of `evaluateFilterSelector`. -/
def evalFilterChildrenLoop (e : Expression) (children : List JSON) (output : List JSON)
    (context : QueryContext) : EvalResult (List JSON) :=
  match children with
  | [] => (.ok output, context)
  | child :: rest =>
    match evaluateExpression e child context with
    | (.error er, c) => (.error er, c)
    | (.ok b, c) =>
      evalFilterChildrenLoop e rest (if b then output ++ [child] else output) c
termination_by (sizeOf e, 8, children.length)

/-- `evaluateExpression`: the boolean (logical-position) evaluation of an
expression; a bare literal here throws, as in the source. -/
def evaluateExpression (e : Expression) (node : JSON) (context : QueryContext) :
    EvalResult Bool :=
  match e with
  | .or operands => evalOrLoop operands node context
  | .and operands => evalAndLoop operands node context
  | .comparison lhs operator rhs => evaluateComparisonExpression lhs operator rhs node context
  | .not operand => evaluateNotExpression operand node context
  | .query identifier segments => evaluateQueryTestExpression identifier segments node context
  | .literal _ => (.error "Invalid literal expression", context)
  | .function f args => evaluateFunctionTestExpression f args node context
termination_by (sizeOf e, 0, 0)

/-- The short-circuiting operand loop of `evaluateOrExpression`. -/
def evalOrLoop (operands : List Expression) (node : JSON) (context : QueryContext) :
    EvalResult Bool :=
  match operands with
  | [] => (.ok false, context)
  | operand :: rest =>
    match evaluateExpression operand node context with
    | (.error e, c) => (.error e, c)
    | (.ok true, c) => (.ok true, c)
    | (.ok false, c) => evalOrLoop rest node c
termination_by (sizeOf operands, 1, 0)

/-- The short-circuiting operand loop of `evaluateAndExpression`. -/
def evalAndLoop (operands : List Expression) (node : JSON) (context : QueryContext) :
    EvalResult Bool :=
  match operands with
  | [] => (.ok true, context)
  | operand :: rest =>
    match evaluateExpression operand node context with
    | (.error e, c) => (.error e, c)
    | (.ok false, c) => (.ok false, c)
    | (.ok true, c) => evalAndLoop rest node c
termination_by (sizeOf operands, 1, 0)

/-- `evaluateComparisonExpression`: evaluate both sides as comparables;
empty sides compare by length for `==`/`!=`/`<=`/`>=` and make `<`/`>`
false; any side longer than one node makes every operator false;
singleton sides compare by `equal` and the tri-state `compare` with the
source's `?? 1` / `?? -1` sentinels. -/
def evaluateComparisonExpression (lhs : Expression) (operator : ComparisonOperator)
    (rhs : Expression) (node : JSON) (context : QueryContext) : EvalResult Bool :=
  match evaluateComparableExpression lhs node context with
  | (.error e, c) => (.error e, c)
  | (.ok lhsNodes, c1) =>
    match evaluateComparableExpression rhs node c1 with
    | (.error e, c) => (.error e, c)
    | (.ok rhsNodes, c2) =>
      if lhsNodes.length = 0 ∨ rhsNodes.length = 0 then
        match operator with
        | .Equal | .LessThanOrEqual | .GreaterThanOrEqual =>
          (.ok (lhsNodes.length == rhsNodes.length), c2)
        | .NotEqual => (.ok (lhsNodes.length != rhsNodes.length), c2)
        | .LessThan | .GreaterThan => (.ok false, c2)
      else if lhsNodes.length ≠ 1 ∨ rhsNodes.length ≠ 1 then (.ok false, c2)
      else
        let a := lhsNodes.headD .null
        let b := rhsNodes.headD .null
        match operator with
        | .Equal => (.ok (equalJSON a b), c2)
        | .NotEqual => (.ok (! equalJSON a b), c2)
        | .LessThan => (.ok (decide (((compareJSON a b).getD 1) < 0)), c2)
        | .LessThanOrEqual => (.ok (decide (((compareJSON a b).getD 1) ≤ 0)), c2)
        | .GreaterThan => (.ok (decide (((compareJSON a b).getD (-1)) > 0)), c2)
        | .GreaterThanOrEqual => (.ok (decide (((compareJSON a b).getD (-1)) ≥ 0)), c2)
termination_by (sizeOf lhs + sizeOf rhs, 0, 0)
decreasing_by
  · apply Prod.Lex.left
    have h : 0 < sizeOf rhs := by cases rhs <;> simp_arith
    omega
  · apply Prod.Lex.left
    have h : 0 < sizeOf lhs := by cases lhs <;> simp_arith
    omega

/-- `evaluateNotExpression`. -/
def evaluateNotExpression (operand : Expression) (node : JSON) (context : QueryContext) :
    EvalResult Bool :=
  match evaluateExpression operand node context with
  | (.error e, c) => (.error e, c)
  | (.ok b, c) => (.ok (! b), c)
termination_by (sizeOf operand, 1, 0)

/-- `evaluateQueryTestExpression`: existence test of the sub-query's
nodelist. -/
def evaluateQueryTestExpression (identifier : QueryIdentifier) (segments : List Segment)
    (node : JSON) (context : QueryContext) : EvalResult Bool :=
  match evaluateQueryExpression identifier segments node context with
  | (.error e, c) => (.error e, c)
  | (.ok nodes, c) => (.ok (existenceTest nodes), c)
termination_by (sizeOf segments, 3, 0)

/-- `evaluateQueryExpression`: root the sub-query at the current filter
node for `@` or at the context's query argument for `$`; save the
context's `queryArgument`, set it to the new root for the duration of
the segment walk, and restore it on every exit (the `try`/`finally` of
the source), error or not. -/
def evaluateQueryExpression (identifier : QueryIdentifier) (segments : List Segment)
    (node : JSON) (context : QueryContext) : EvalResult (List JSON) :=
  let root := match identifier with
    | .atSign => node
    | .dollar => context.queryArgument
  let queryArgument := context.queryArgument
  match evalSegmentList segments [root] { context with queryArgument := root } with
  | (r, c) => (r, { c with queryArgument := queryArgument })
termination_by (sizeOf segments, 2, 0)

/-- `evaluateFunctionTestExpression`: evaluate the arguments, then
dispatch on the declared result type — `Logical` results are returned,
`Nodes` results are existence-tested, a `Value` function here throws. -/
def evaluateFunctionTestExpression (f : FunctionExtension) (args : List Expression)
    (node : JSON) (context : QueryContext) : EvalResult Bool :=
  match evaluateFunctionArguments f args node context with
  | (.error e, c) => (.error e, c)
  | (.ok argv, c) =>
    match f.resultType with
    | .Value => (.error "ValueType function not supported in test expression", c)
    | .Logical =>
      match f.evaluate argv with
      | .error e => (.error e, c)
      | .ok (.logical b) => (.ok b, c)
      | .ok _ => (.error resultTypeMismatch, c)
    | .Nodes =>
      match f.evaluate argv with
      | .error e => (.error e, c)
      | .ok (.nodes ns) => (.ok (existenceTest ns), c)
      | .ok _ => (.error resultTypeMismatch, c)
termination_by (sizeOf args, 3, 0)

/-- `evaluateComparableExpression`: a literal becomes a one-element
nodelist, a query its result nodelist, a `Value` function its value as a
nodelist; every other kind throws (the parser prevents it). -/
def evaluateComparableExpression (e : Expression) (node : JSON) (context : QueryContext) :
    EvalResult (List JSON) :=
  match e with
  | .literal v => (.ok (evaluateLiteralExpression v), context)
  | .query identifier segments => evaluateQueryExpression identifier segments node context
  | .function f args => evaluateFunctionExpression f args node context
  | _ => (.error "Invalid ComparableExpressionKind", context)
termination_by (sizeOf e, 4, 0)

/-- `evaluateFunctionExpression`: a `Value` function's result as a
nodelist; `Logical` and `Nodes` functions are not supported in
comparison positions. -/
def evaluateFunctionExpression (f : FunctionExtension) (args : List Expression) (node : JSON)
    (context : QueryContext) : EvalResult (List JSON) :=
  match evaluateFunctionArguments f args node context with
  | (.error e, c) => (.error e, c)
  | (.ok argv, c) =>
    match f.resultType with
    | .Value =>
      match f.evaluate argv with
      | .error e => (.error e, c)
      | .ok (.value v) => (.ok (valueTypeList v), c)
      | .ok _ => (.error resultTypeMismatch, c)
    | .Logical => (.error "LogicalType function not supported in comparison expression", c)
    | .Nodes => (.error "NodesType function not supported in comparison expression", c)
termination_by (sizeOf args, 3, 0)

/-- `evaluateFunctionArguments`: the exact-arity guard, then each
argument evaluated against its declared parameter type. -/
def evaluateFunctionArguments (f : FunctionExtension) (args : List Expression) (node : JSON)
    (context : QueryContext) : EvalResult (List ExpressionType) :=
  if args.length ≠ f.parameterTypes.length then
    (.error ("Expected " ++ toString f.parameterTypes.length ++ " arguments for function " ++
             renderName f.name ++ ", but received " ++ toString args.length ++ " arguments"),
     context)
  else evalFunctionArgsLoop f.parameterTypes args node [] context
termination_by (sizeOf args, 2, 0)

/-- The per-parameter loop of `evaluateFunctionArguments`. -/
def evalFunctionArgsLoop (parameterTypes : List DeclaredType) (args : List Expression)
    (node : JSON) (acc : List ExpressionType) (context : QueryContext) :
    EvalResult (List ExpressionType) :=
  match parameterTypes, args with
  | parameterType :: restTypes, arg :: restArgs =>
    match evaluateFunctionArgument parameterType arg node context with
    | (.error e, c) => (.error e, c)
    | (.ok v, c) => evalFunctionArgsLoop restTypes restArgs node (acc ++ [v]) c
  | _, _ => (.ok acc, context)
termination_by (sizeOf args, 1, 0)

/-- `evaluateFunctionArgument`: dispatch on the declared parameter
type. -/
def evaluateFunctionArgument (parameterType : DeclaredType) (e : Expression) (node : JSON)
    (context : QueryContext) : EvalResult ExpressionType :=
  match parameterType with
  | .Value => evaluateValueFunctionArgument e node context
  | .Logical => evaluateLogicalFunctionArgument e node context
  | .Nodes => evaluateNodesFunctionArgument e node context
termination_by (sizeOf e, 7, 0)

/-- `evaluateValueFunctionArgument`: a `Value` function call recurses; a
literal is its value; a (singular) query collapses to its single node or
Nothing; anything else throws. -/
def evaluateValueFunctionArgument (e : Expression) (node : JSON) (context : QueryContext) :
    EvalResult ExpressionType :=
  match e with
  | .function f args =>
    match f.resultType with
    | .Value =>
      match evaluateFunctionArguments f args node context with
      | (.error er, c) => (.error er, c)
      | (.ok argv, c) =>
        match f.evaluate argv with
        | .error er => (.error er, c)
        | .ok (.value v) => (.ok (.value v), c)
        | .ok _ => (.error resultTypeMismatch, c)
    | .Logical =>
      (.error "LogicalType function not supported in ValueType argument position", context)
    | .Nodes =>
      (.error "NodesType function not supported in ValueType argument position", context)
  | .literal v => (.ok (.value (some v)), context)
  | .query identifier segments =>
    match evaluateQueryExpression identifier segments node context with
    | (.error er, c) => (.error er, c)
    | (.ok nodes, c) => (.ok (.value (singularValue nodes)), c)
  | _ =>
    (.error ("ValueType function argument must be a ValueType function expression, " ++
             "a literal expression, or a singular query expression"), context)
termination_by (sizeOf e, 6, 0)

/-- `evaluateLogicalFunctionArgument`: a `Logical` function call
recurses, a `Nodes` one is existence-tested, a `Value` one throws; any
other expression falls through to the boolean evaluation. -/
def evaluateLogicalFunctionArgument (e : Expression) (node : JSON) (context : QueryContext) :
    EvalResult ExpressionType :=
  match e with
  | .function f args =>
    match f.resultType with
    | .Value =>
      (.error "ValueType function not supported in LogicalType argument position", context)
    | .Logical =>
      match evaluateFunctionArguments f args node context with
      | (.error er, c) => (.error er, c)
      | (.ok argv, c) =>
        match f.evaluate argv with
        | .error er => (.error er, c)
        | .ok (.logical b) => (.ok (.logical b), c)
        | .ok _ => (.error resultTypeMismatch, c)
    | .Nodes =>
      match evaluateFunctionArguments f args node context with
      | (.error er, c) => (.error er, c)
      | (.ok argv, c) =>
        match f.evaluate argv with
        | .error er => (.error er, c)
        | .ok (.nodes ns) => (.ok (.logical (existenceTest ns)), c)
        | .ok _ => (.error resultTypeMismatch, c)
  | other =>
    match evaluateExpression other node context with
    | (.error er, c) => (.error er, c)
    | (.ok b, c) => (.ok (.logical b), c)
termination_by (sizeOf e, 6, 0)

/-- `evaluateNodesFunctionArgument`: a `Nodes` function call recurses, a
query yields its full nodelist, anything else throws. -/
def evaluateNodesFunctionArgument (e : Expression) (node : JSON) (context : QueryContext) :
    EvalResult ExpressionType :=
  match e with
  | .function f args =>
    match f.resultType with
    | .Value =>
      (.error "ValueType function not supported in NodesType argument position", context)
    | .Logical =>
      (.error "LogicalType function not supported in NodesType argument position", context)
    | .Nodes =>
      match evaluateFunctionArguments f args node context with
      | (.error er, c) => (.error er, c)
      | (.ok argv, c) =>
        match f.evaluate argv with
        | .error er => (.error er, c)
        | .ok (.nodes ns) => (.ok (.nodes ns), c)
        | .ok _ => (.error resultTypeMismatch, c)
  | .query identifier segments =>
    match evaluateQueryExpression identifier segments node context with
    | (.error er, c) => (.error er, c)
    | (.ok nodes, c) => (.ok (.nodes nodes), c)
  | _ =>
    (.error ("NodesType function argument must be a NodesType function expression " ++
             "or a query expression"), context)
termination_by (sizeOf e, 6, 0)

end

/-- `evaluateQuery` (the top-level evaluation entry point): walk the
query's segments from a one-element nodelist holding the root, with the
context's `queryArgument` set to the root for the duration and restored
on every exit.  (The string overload, which first parses, and the
context coercion of the source are not modelled; the query is given as
an AST and the context explicitly.) -/
def evaluateQuery (query : Query) (root : JSON) (context : QueryContext) :
    EvalResult (List JSON) :=
  let queryArgument := context.queryArgument
  match evalSegmentList query.segments [root] { context with queryArgument := root } with
  | (r, c) => (r, { c with queryArgument := queryArgument })

/-! ## Intrinsic function extensions (`function.ts`)

The `match` and `search` intrinsics construct a host regular expression
with `new RegExp(...)` and test it.  The host regex engine is external
to the package; it is abstracted here as a parameter
`newRegExp : JSString → Except String (JSString → Bool)` — the
constructor either throws (a `SyntaxError` for a pattern the host
rejects) or yields a compiled test predicate.  The source calls the
constructor without a surrounding try/catch, so a thrown `SyntaxError`
propagates out of `evaluate`. -/

/-- A regex engine: `new RegExp(pattern)` either throws or compiles. -/
abbrev RegExpEngine := JSString → Except String (JSString → Bool)

/-- `lengthFunction` (`function.ts`): Unicode-scalar-value length of a
string, element count of an array, member count of an object, Nothing
otherwise.  A nodelist argument is a JavaScript array at runtime, so
`isArray` accepts it; the parser's typing rules keep that unreachable. -/
def lengthFunction : FunctionExtension where
  name := jstr "length"
  parameterTypes := [.Value]
  resultType := .Value
  evaluate := fun args =>
    match args.getD 0 (.value none) with
    | .value (some (.str s)) => .ok (.value (some (.num (unicodeLength s))))
    | .value (some (.arr elements)) => .ok (.value (some (.num elements.length)))
    | .value (some (.obj members)) => .ok (.value (some (.num members.length)))
    | .nodes ns => .ok (.value (some (.num ns.length)))
    | _ => .ok (.value none)

/-- `countFunction` (`function.ts`): the length of the nodelist argument
(no deduplication).  The source casts `args[0] as NodesType` without a
check; the parser's typing rules make a non-nodelist argument
unreachable, modelled by an error. -/
def countFunction : FunctionExtension where
  name := jstr "count"
  parameterTypes := [.Nodes]
  resultType := .Value
  evaluate := fun args =>
    match args.getD 0 (.value none) with
    | .nodes ns => .ok (.value (some (.num ns.length)))
    | _ => .error "count: argument is not a nodelist"

/-- `matchFunction` (`function.ts`): false unless both arguments are
strings; otherwise the first string is tested against
`new RegExp("^(?:" + regex + ")$")` — whose construction can throw. -/
def matchFunction (newRegExp : RegExpEngine) : FunctionExtension where
  name := jstr "match"
  parameterTypes := [.Value, .Value]
  resultType := .Logical
  evaluate := fun args =>
    match args.getD 0 (.value none), args.getD 1 (.value none) with
    | .value (some (.str value)), .value (some (.str regex)) =>
      match newRegExp (jstr "^(?:" ++ regex ++ jstr ")$") with
      | .error e => .error e
      | .ok test => .ok (.logical (test value))
    | _, _ => .ok (.logical false)

/-- `searchFunction` (`function.ts`): like `match` but the pattern is
used bare (`new RegExp(regex)`), giving substring search. -/
def searchFunction (newRegExp : RegExpEngine) : FunctionExtension where
  name := jstr "search"
  parameterTypes := [.Value, .Value]
  resultType := .Logical
  evaluate := fun args =>
    match args.getD 0 (.value none), args.getD 1 (.value none) with
    | .value (some (.str value)), .value (some (.str regex)) =>
      match newRegExp regex with
      | .error e => .error e
      | .ok test => .ok (.logical (test value))
    | _, _ => .ok (.logical false)

/-- `valueFunction` (`function.ts`): the single node of a one-element
nodelist, Nothing for zero or several nodes. -/
def valueFunction : FunctionExtension where
  name := jstr "value"
  parameterTypes := [.Nodes]
  resultType := .Value
  evaluate := fun args =>
    match args.getD 0 (.value none) with
    | .nodes ns => .ok (.value (singularValue ns))
    | _ => .error "value: argument is not a nodelist"

/-- `intrinsicFunctions` (`function.ts`): the five pre-registered
intrinsics, keyed by name. -/
def intrinsicFunctions (newRegExp : RegExpEngine) : List (JSString × FunctionExtension) :=
  [(lengthFunction.name, lengthFunction),
   (countFunction.name, countFunction),
   ((matchFunction newRegExp).name, matchFunction newRegExp),
   ((searchFunction newRegExp).name, searchFunction newRegExp),
   (valueFunction.name, valueFunction)]

/-- A placeholder host regex engine for computations in which no regex
is ever compiled (the parser never calls `evaluate`). -/
def noRegexEngine : RegExpEngine :=
  fun _ => .error "SyntaxError"

/-- A freshly created default query context (`createQueryContext` with no
options): the intrinsic registry, no explicit query argument, no scope. -/
def defaultContext (newRegExp : RegExpEngine) : QueryContext where
  functionExtensions := intrinsicFunctions newRegExp
  queryArgument := .null
  queryScope := none

/-! ## Well-formedness predicates on parsed ASTs

Two recursive checks over the AST, used to state what the parser's
static rules guarantee about every AST it returns: the exact-arity
property of every function call (claim about `parseFunctionArguments`)
and the well-typedness of every comparison's sides (the singular-query
and Value-function gate of `parseBasicExpression`). -/

mutual

/-- Every function call anywhere in the expression has exactly as many
arguments as its extension declares parameters. -/
def exprArityOK : Expression → Bool
  | .or operands => exprListArityOK operands
  | .and operands => exprListArityOK operands
  | .comparison lhs _ rhs => exprArityOK lhs && exprArityOK rhs
  | .not operand => exprArityOK operand
  | .query _ segments => segmentListArityOK segments
  | .literal _ => true
  | .function f args => (args.length == f.parameterTypes.length) && exprListArityOK args
termination_by e => sizeOf e

/-- `exprArityOK` over an operand or argument list. -/
def exprListArityOK : List Expression → Bool
  | [] => true
  | e :: rest => exprArityOK e && exprListArityOK rest
termination_by es => sizeOf es

/-- Arity well-formedness of a segment's selectors. -/
def segmentArityOK : Segment → Bool
  | .child selectors => selectorListArityOK selectors
  | .descendant selectors => selectorListArityOK selectors
termination_by s => sizeOf s

/-- `segmentArityOK` over a segment list. -/
def segmentListArityOK : List Segment → Bool
  | [] => true
  | s :: rest => segmentArityOK s && segmentListArityOK rest
termination_by ss => sizeOf ss

/-- Arity well-formedness of a selector (only filters contain
expressions). -/
def selectorArityOK : Selector → Bool
  | .filter e => exprArityOK e
  | _ => true
termination_by s => sizeOf s

/-- `selectorArityOK` over a selector list. -/
def selectorListArityOK : List Selector → Bool
  | [] => true
  | s :: rest => selectorArityOK s && selectorListArityOK rest
termination_by ss => sizeOf ss

end

/-- Arity well-formedness of a whole query. -/
def queryArityOK (q : Query) : Bool :=
  segmentListArityOK q.segments

/-- A well-typed comparison side: a literal, a singular query, or a call
of a `Value`-returning function (the exact condition the parser's
singular-query gate and `checkComparableType` enforce). -/
def comparableSideOK : Expression → Bool
  | .literal _ => true
  | .query _ segments => isSingularQuery segments
  | .function f _ => f.resultType == .Value
  | _ => false

mutual

/-- Every comparison anywhere in the expression has well-typed sides
(`comparableSideOK` on both). -/
def exprCmpOK : Expression → Bool
  | .or operands => exprListCmpOK operands
  | .and operands => exprListCmpOK operands
  | .comparison lhs _ rhs =>
    comparableSideOK lhs && comparableSideOK rhs && exprCmpOK lhs && exprCmpOK rhs
  | .not operand => exprCmpOK operand
  | .query _ segments => segmentListCmpOK segments
  | .literal _ => true
  | .function _ args => exprListCmpOK args
termination_by e => sizeOf e

/-- `exprCmpOK` over an operand or argument list. -/
def exprListCmpOK : List Expression → Bool
  | [] => true
  | e :: rest => exprCmpOK e && exprListCmpOK rest
termination_by es => sizeOf es

/-- Comparison well-typedness of a segment's selectors. -/
def segmentCmpOK : Segment → Bool
  | .child selectors => selectorListCmpOK selectors
  | .descendant selectors => selectorListCmpOK selectors
termination_by s => sizeOf s

/-- `segmentCmpOK` over a segment list. -/
def segmentListCmpOK : List Segment → Bool
  | [] => true
  | s :: rest => segmentCmpOK s && segmentListCmpOK rest
termination_by ss => sizeOf ss

/-- Comparison well-typedness of a selector. -/
def selectorCmpOK : Selector → Bool
  | .filter e => exprCmpOK e
  | _ => true
termination_by s => sizeOf s

/-- `selectorCmpOK` over a selector list. -/
def selectorListCmpOK : List Selector → Bool
  | [] => true
  | s :: rest => selectorCmpOK s && selectorListCmpOK rest
termination_by ss => sizeOf ss

end

/-- Comparison well-typedness of a whole query. -/
def queryCmpOK (q : Query) : Bool :=
  segmentListCmpOK q.segments

/-- The expression kinds `parseComparable` can return: a literal, a
query, or a function call. -/
def comparableShape : Expression → Bool
  | .literal _ => true
  | .query _ _ => true
  | .function _ _ => true
  | _ => false

/-! ## The specification's wording of child-segment evaluation -/

/-- Stated from the spec's words: for one selector `s`, "for each node
`n` in the input nodelist (in input order), append
`evaluateSelector(s, n, ctx)`". -/
def childSegmentNodeAppends (selector : Selector) (nodes : List JSON)
    (context : QueryContext) : EvalResult (List JSON) :=
  match nodes with
  | [] => (.ok [], context)
  | node :: rest =>
    match evaluateSelector selector node context with
    | (.error e, c) => (.error e, c)
    | (.ok found, c) =>
      match childSegmentNodeAppends selector rest c with
      | (.error e, c') => (.error e, c')
      | (.ok later, c') => (.ok (found ++ later), c')

/-- Stated from the spec's words: "for each selector `s` (in source
order), then for each node `n` in the input nodelist (in input order),
append `evaluateSelector(s, n, ctx)`" — so the whole output is the first
selector's matches over all nodes, then the second selector's, and so
on. -/
def childSegmentSelectorMajor (selectors : List Selector) (nodes : List JSON)
    (context : QueryContext) : EvalResult (List JSON) :=
  match selectors with
  | [] => (.ok [], context)
  | selector :: rest =>
    match childSegmentNodeAppends selector nodes context with
    | (.error e, c) => (.error e, c)
    | (.ok found, c) =>
      match childSegmentSelectorMajor rest nodes c with
      | (.error e, c') => (.error e, c')
      | (.ok later, c') => (.ok (found ++ later), c')


/-! ## Parser-output invariants

The conjunction of the two AST well-formedness checks, per syntactic
category, and the statement that every parse function establishes them
on every AST it returns (at any fuel). -/

/-- A well-formed parsed segment: arity-exact and comparison-well-typed. -/
def SegInv (seg : Segment) : Prop :=
  segmentArityOK seg = true ∧ segmentCmpOK seg = true

/-- Well-formed parsed segment list. -/
def SegsInv (segments : List Segment) : Prop :=
  segmentListArityOK segments = true ∧ segmentListCmpOK segments = true

/-- Well-formed parsed selector. -/
def SelInv (selector : Selector) : Prop :=
  selectorArityOK selector = true ∧ selectorCmpOK selector = true

/-- Well-formed parsed selector list. -/
def SelsInv (selectors : List Selector) : Prop :=
  selectorListArityOK selectors = true ∧ selectorListCmpOK selectors = true

/-- Well-formed parsed expression. -/
def ExprInv (e : Expression) : Prop :=
  exprArityOK e = true ∧ exprCmpOK e = true

/-- Well-formed parsed expression list. -/
def ExprsInv (es : List Expression) : Prop :=
  exprListArityOK es = true ∧ exprListCmpOK es = true

/-- The parser invariant, over every function of the mutual grammar at a
given fuel: every successfully returned AST fragment is well-formed
(assuming well-formed accumulators for the loop helpers), and
`parseComparable` and `parseFunctionArguments` in addition return only
comparable-shaped expressions. -/
def ParserInv (n : Nat) : Prop :=
  (∀ input segments st r st', parseSegments n input segments st = (.ok r, st') →
     SegsInv segments → SegsInv r)
  ∧ (∀ input st seg st', parseSegment n input st = (.ok (some seg), st') → SegInv seg)
  ∧ (∀ input d selectors st seg st',
       parseBracketedSelectors n input d selectors st = (.ok (some seg), st') →
       SelsInv selectors → SegInv seg)
  ∧ (∀ input st sel st', parseSelector n input st = (.ok sel, st') → SelInv sel)
  ∧ (∀ input st sel st', parseFilterSelector n input st = (.ok sel, st') → SelInv sel)
  ∧ (∀ input st e st', parseExpression n input st = (.ok e, st') → ExprInv e)
  ∧ (∀ input st e st', parseOrExpression n input st = (.ok e, st') → ExprInv e)
  ∧ (∀ input operands st e st', parseOrRest n input operands st = (.ok e, st') →
       ExprsInv operands → ExprInv e)
  ∧ (∀ input st e st', parseAndExpression n input st = (.ok e, st') → ExprInv e)
  ∧ (∀ input operands st e st', parseAndRest n input operands st = (.ok e, st') →
       ExprsInv operands → ExprInv e)
  ∧ (∀ input st e st', parseBasicExpression n input st = (.ok e, st') → ExprInv e)
  ∧ (∀ input st e st', parseParenExpression n input st = (.ok e, st') → ExprInv e)
  ∧ (∀ input st e st', parseComparable n input st = (.ok e, st') →
       ExprInv e ∧ comparableShape e = true)
  ∧ (∀ input func st e st', parseFunctionArguments n input func st = (.ok e, st') →
       ExprInv e ∧ comparableShape e = true)
  ∧ (∀ input func args st r st',
       parseFunctionArgumentsRest n input func args st = (.ok r, st') →
       ExprsInv args → ExprsInv r)

/-! # Theorems -/

/-! ## C4: child segments iterate selectors outer, nodes inner -/

/-- The accumulator form of the inner node loop equals the append form
of the spec's wording. -/
theorem evalChildNodesLoop_appends (selector : Selector) :
    ∀ (nodes : List JSON) (output : List JSON) (context : QueryContext),
      evalChildNodesLoop selector nodes output context =
        (match childSegmentNodeAppends selector nodes context with
         | (.error e, c) => (.error e, c)
         | (.ok later, c) => (.ok (output ++ later), c)) := by
  intro nodes
  induction nodes with
  | nil => intro output context; simp [evalChildNodesLoop, childSegmentNodeAppends]
  | cons node rest ih =>
    intro output context
    simp only [evalChildNodesLoop, childSegmentNodeAppends]
    cases hsel : evaluateSelector selector node context with
    | mk res c =>
      cases res with
      | error e => simp
      | ok found =>
        simp only [ih]
        cases hrec : childSegmentNodeAppends selector rest c with
        | mk res' c' => cases res' <;> simp [List.append_assoc]

/-- The accumulator form of the outer selector loop equals the append
form of the spec's wording. -/
theorem evalChildSelectorsLoop_appends :
    ∀ (selectors : List Selector) (nodes : List JSON) (output : List JSON)
      (context : QueryContext),
      evalChildSelectorsLoop selectors nodes output context =
        (match childSegmentSelectorMajor selectors nodes context with
         | (.error e, c) => (.error e, c)
         | (.ok later, c) => (.ok (output ++ later), c)) := by
  intro selectors
  induction selectors with
  | nil => intro nodes output context; simp [evalChildSelectorsLoop, childSegmentSelectorMajor]
  | cons selector rest ih =>
    intro nodes output context
    simp only [evalChildSelectorsLoop, childSegmentSelectorMajor]
    rw [evalChildNodesLoop_appends]
    cases hsel : childSegmentNodeAppends selector nodes context with
    | mk res c =>
      cases res with
      | error e => simp
      | ok found =>
        simp only [ih]
        cases hrec : childSegmentSelectorMajor rest nodes c with
        | mk res' c' => cases res' <;> simp [List.append_assoc]

/-- C4.  For every child segment and every input nodelist, evaluating
the segment iterates the selectors in the outer loop (in source order)
and the input nodes in the inner loop (in input order), appending each
selector's results: the evaluation equals the selector-major composition
`childSegmentSelectorMajor` stated from the spec's words, so with
several selectors the output lists all matches of the first selector
across all nodes before any match of the second. -/
theorem child_segment_selector_major_order :
    ∀ (selectors : List Selector) (nodes : List JSON) (context : QueryContext),
      evaluateSegment (.child selectors) nodes context =
        childSegmentSelectorMajor selectors nodes context := by
  intro selectors nodes context
  simp only [evaluateSegment, evaluateChildSegment]
  rw [evalChildSelectorsLoop_appends]
  cases h : childSegmentSelectorMajor selectors nodes context with
  | mk res c => cases res <;> simp

/-! ## C9: sub-query rooting and exception-safe rebinding of the query
argument -/

/-- C9.  In `evaluateQueryExpression` a `@`-query is rooted at the
current filter node and a `$`-query at the context's current
`queryArgument` (and `evaluateQuery` roots at the supplied root); and on
every exit — the returned pair covers normal results and propagated
errors alike — the context's `queryArgument` is restored to exactly the
value it held on entry. -/
theorem nested_root_rebinding :
    ∀ (identifier : QueryIdentifier) (segments : List Segment) (node : JSON)
      (context : QueryContext) (q : Query) (root : JSON),
      ((evaluateQueryExpression identifier segments node context).2.queryArgument
          = context.queryArgument)
      ∧ ((evaluateQuery q root context).2.queryArgument = context.queryArgument)
      ∧ ((evaluateQueryExpression .atSign segments node context).1
          = (evalSegmentList segments [node] { context with queryArgument := node }).1)
      ∧ ((evaluateQueryExpression .dollar segments node context).1
          = (evalSegmentList segments [context.queryArgument]
              { context with queryArgument := context.queryArgument }).1)
      ∧ ((evaluateQuery q root context).1
          = (evalSegmentList q.segments [root] { context with queryArgument := root }).1) := by
  intro identifier segments node context q root
  refine ⟨?_, ?_, ?_, ?_, ?_⟩
  · cases identifier <;> simp [evaluateQueryExpression]
  · simp [evaluateQuery]
  · simp [evaluateQueryExpression]
  · simp [evaluateQueryExpression]
  · simp [evaluateQuery]

/-! ## C2: the formatter emits a string its own parser rejects -/

/-- C2 (counterexample to the round-trip law).  The query
`$[?!(!@.a)]` parses (into a double negation), the formatter prints it
as `$[?!!@.a]` — not derivable in the RFC 9535 grammar the module
documents — and `parseQuery` rejects that output at offset 4.  So
`parseQuery(formatQuery(parseQuery(s)))` does not exist for this
accepted `s`. -/
theorem formatter_output_not_reparseable :
    parseQuery (defaultContext noRegexEngine) (jstr "$[?!(!@.a)]")
      = .ok ⟨[.child [.filter (.not (.not (.query .atSign [.child [.name (jstr "a")]])))]]⟩
    ∧ formatQuery ⟨[.child [.filter (.not (.not (.query .atSign [.child [.name (jstr "a")]])))]]⟩
      = jstr "$[?!!@.a]"
    ∧ parseQuery (defaultContext noRegexEngine) (jstr "$[?!!@.a]")
      = .error ⟨"Expected comparable expression", 4⟩ := by
  refine ⟨by rfl, ?_, by rfl⟩
  simp [formatQuery, formatSegmentList, formatSegment, formatChildSegment, formatSelectorList,
    formatSelector, formatFilterSelector, formatExpression, formatNotExpression,
    parenthesizeExpression, getExpressionPrecedence, formatQueryExpression, isValidShorthandName,
    isNameFirstChar, isAlpha, isUppercase, isLowercase, isNameChar, isDigit, jstr]

/-! ## C6: non-ASCII shorthand names -/

/-- C6.  The shorthand name-first class of the parser is ASCII-only
(`A-Z`, `a-z`, `_`): `isNameFirstChar` rejects U+00E9, and `parseQuery`
rejects `$.é` with "Expected dot segment" at offset 2 instead of parsing
a child segment with a Name selector as RFC 9535 (which the package
documents itself as implementing) requires. -/
theorem non_ascii_shorthand_rejected :
    parseQuery (defaultContext noRegexEngine) (jstr "$.é")
      = .error ⟨"Expected dot segment", 2⟩
    ∧ isNameFirstChar 0xe9 = false := by
  exact ⟨by rfl, by decide⟩

/-! ## C10: parseSegment on empty and non-segment inputs -/

/-- The bracketed-selection loop never reports "no segment": it returns
a segment or raises. -/
theorem parseBracketedSelectors_ne_none :
    ∀ (fuel : Nat) (input : JSString) (descendant : Bool) (selectors : List Selector)
      (st : PState), (parseBracketedSelectors fuel input descendant selectors st).1 ≠ .ok none := by
  intro fuel
  induction fuel with
  | zero => intro input d selectors st h; simp [parseBracketedSelectors] at h
  | succ n ih =>
    intro input d selectors st h
    simp only [parseBracketedSelectors] at h
    split at h
    · simp at h
    · split at h
      · simp at h
      · split at h
        · simp at h
        · exact ih _ _ _ _ h

/-- When `parseSegment` reports "no segment", it has consumed nothing:
the state is returned unchanged. -/
theorem parseSegment_ok_none :
    ∀ (fuel : Nat) (input : JSString) (st r : PState),
      parseSegment fuel input st = (.ok none, r) → r = st := by
  intro fuel input st r h
  match fuel with
  | 0 => simp [parseSegment] at h
  | n + 1 =>
    simp only [parseSegment] at h
    repeat' split at h
    all_goals
      first
      | exact (parseBracketedSelectors_ne_none _ _ _ _ _ (congrArg Prod.fst h)).elim
      | simp_all

/-- C10.  The non-`try` whole-string `parseSegment` entry point returns
an absent result (without raising) on the empty string, while on any
non-empty input it never returns an absent result: it parses a segment
or raises a parse error. -/
theorem parse_segment_empty_none_nonempty_never_none :
    ∀ (context : QueryContext) (input : JSString),
      parseSegmentString context [] = .ok none
      ∧ (input ≠ [] → parseSegmentString context input ≠ .ok none) := by
  intro context input
  constructor
  · rfl
  · intro hne h
    simp only [parseSegmentString] at h
    cases hp : parseSegment (parseFuel input) input ⟨0, context⟩ with
    | mk res st' =>
      rw [hp] at h
      cases res with
      | error e => simp at h
      | ok seg =>
        dsimp only [] at h
        by_cases hoff : st'.offset = input.length
        · rw [hoff] at h
          simp at h
          subst h
          have hst := parseSegment_ok_none _ _ _ _ hp
          rw [hst] at hoff
          have hlen : input.length = 0 := hoff.symm
          exact hne (List.length_eq_zero.mp hlen)
        · simp [hoff] at h

/-- Witness for C10: the non-empty input `x` (which begins no segment)
does not yield an absent result. -/
theorem parse_segment_nonempty_witness :
    jstr "x" ≠ ([] : JSString)
    ∧ parseSegmentString (defaultContext noRegexEngine) (jstr "x") ≠ .ok none := by
  refine ⟨by decide, ?_⟩
  exact (parse_segment_empty_none_nonempty_never_none (defaultContext noRegexEngine)
    (jstr "x")).2 (by decide)

/-! ## C5: match/search raise on an invalid host regular expression -/

/-- C5 (the code raises where the claim requires false).  Whenever the
host regex constructor rejects the (anchored) pattern built from the
second string argument, `matchFunction.evaluate` — and likewise
`searchFunction.evaluate` for the bare pattern — propagates that
exception instead of returning LogicalFalse. -/
theorem match_search_invalid_regexp_raises :
    ∀ (newRegExp : RegExpEngine) (value regex : JSString) (e e' : String),
      (newRegExp (jstr "^(?:" ++ regex ++ jstr ")$") = .error e →
        (matchFunction newRegExp).evaluate
          [.value (some (.str value)), .value (some (.str regex))] = .error e)
      ∧ (newRegExp regex = .error e' →
        (searchFunction newRegExp).evaluate
          [.value (some (.str value)), .value (some (.str regex))] = .error e') := by
  intro newRegExp value regex e e'
  constructor
  · intro h
    simp only [List.append_assoc] at h
    simp [matchFunction, h]
  · intro h
    simp [searchFunction, h]

/-- Witness for C5: with a host engine that rejects every pattern (as
the real engine rejects `[`), `match("a", "[")` and `search("a", "[")`
throw a `SyntaxError` instead of returning false. -/
theorem match_search_invalid_regexp_raises_witness :
    (matchFunction noRegexEngine).evaluate
      [.value (some (.str (jstr "a"))), .value (some (.str (jstr "[")))] = .error "SyntaxError"
    ∧ (searchFunction noRegexEngine).evaluate
      [.value (some (.str (jstr "a"))), .value (some (.str (jstr "[")))] = .error "SyntaxError" := by
  exact ⟨(match_search_invalid_regexp_raises noRegexEngine (jstr "a") (jstr "[")
      "SyntaxError" "SyntaxError").1 rfl,
    (match_search_invalid_regexp_raises noRegexEngine (jstr "a") (jstr "[")
      "SyntaxError" "SyntaxError").2 rfl⟩

/-! ## C1: Nothing semantics of comparisons on 0/1-length sides -/

/-- C1.  For a comparison whose two sides evaluate to nodelists of
length 0 (Nothing) or 1: `==` is true iff both sides are empty or both
are present and JSON-equal; `!=` is true iff exactly one side is empty
or both are present and not JSON-equal; `<=` and `>=` are true when both
sides are empty; and `<`, `>`, `<=`, `>=` are all false whenever exactly
one side is empty. -/
theorem nothing_comparison_semantics :
    ∀ (lhs rhs : Expression) (node : JSON) (context c₁ c₂ : QueryContext)
      (lhsNodes rhsNodes : List JSON),
      evaluateComparableExpression lhs node context = (.ok lhsNodes, c₁) →
      evaluateComparableExpression rhs node c₁ = (.ok rhsNodes, c₂) →
      lhsNodes.length ≤ 1 → rhsNodes.length ≤ 1 →
      (((evaluateComparisonExpression lhs .Equal rhs node context).1 = .ok true ↔
          (lhsNodes = [] ∧ rhsNodes = []) ∨
          (∃ a b, lhsNodes = [a] ∧ rhsNodes = [b] ∧ equalJSON a b = true))
       ∧ ((evaluateComparisonExpression lhs .NotEqual rhs node context).1 = .ok true ↔
          (lhsNodes = [] ∧ rhsNodes ≠ []) ∨ (lhsNodes ≠ [] ∧ rhsNodes = []) ∨
          (∃ a b, lhsNodes = [a] ∧ rhsNodes = [b] ∧ equalJSON a b = false))
       ∧ (lhsNodes = [] → rhsNodes = [] →
          (evaluateComparisonExpression lhs .LessThanOrEqual rhs node context).1 = .ok true ∧
          (evaluateComparisonExpression lhs .GreaterThanOrEqual rhs node context).1 = .ok true)
       ∧ ((lhsNodes = [] ∧ rhsNodes ≠ []) ∨ (lhsNodes ≠ [] ∧ rhsNodes = []) →
          (evaluateComparisonExpression lhs .LessThan rhs node context).1 = .ok false ∧
          (evaluateComparisonExpression lhs .GreaterThan rhs node context).1 = .ok false ∧
          (evaluateComparisonExpression lhs .LessThanOrEqual rhs node context).1 = .ok false ∧
          (evaluateComparisonExpression lhs .GreaterThanOrEqual rhs node context).1
            = .ok false)) := by
  intro lhs rhs node context c₁ c₂ lhsNodes rhsNodes h1 h2 hL hR
  rcases lhsNodes with _ | ⟨a, _ | ⟨a2, lrest⟩⟩
  · rcases rhsNodes with _ | ⟨b, _ | ⟨b2, rrest⟩⟩
    · refine ⟨?_, ?_, ?_, ?_⟩ <;> simp [evaluateComparisonExpression, h1, h2]
    · refine ⟨?_, ?_, ?_, ?_⟩ <;> simp [evaluateComparisonExpression, h1, h2]
    · simp at hR
  · rcases rhsNodes with _ | ⟨b, _ | ⟨b2, rrest⟩⟩
    · refine ⟨?_, ?_, ?_, ?_⟩ <;> simp [evaluateComparisonExpression, h1, h2]
    · refine ⟨?_, ?_, ?_, ?_⟩ <;> simp [evaluateComparisonExpression, h1, h2]
    · simp at hR
  · simp at hL

/-- Witness for C1: `null == null` on singleton literal sides evaluates
to true. -/
theorem nothing_comparison_semantics_witness :
    (evaluateComparisonExpression (.literal .null) .Equal (.literal .null) .null
        (defaultContext noRegexEngine)).1 = .ok true := by
  have h := nothing_comparison_semantics (.literal .null) (.literal .null) .null
    (defaultContext noRegexEngine) (defaultContext noRegexEngine) (defaultContext noRegexEngine)
    [JSON.null] [JSON.null]
    (by simp [evaluateComparableExpression, evaluateLiteralExpression])
    (by simp [evaluateComparableExpression, evaluateLiteralExpression])
    (by simp) (by simp)
  exact h.1.mpr (Or.inr ⟨.null, .null, rfl, rfl, by decide⟩)

/-! ## C7: comparisons with a side of length two or more -/

/-- C7 (counterexample to "false for all operators").  With a left side
evaluating to the empty nodelist and a right side evaluating to a
two-element nodelist (the wildcard query `@[*]` on a two-element array —
buildable only with the direct AST constructors, since the parser's
singular-query gate rejects it), `!=` evaluates to true, not false. -/
theorem comparison_multi_length_notequal_true :
    (evaluateComparisonExpression (.query .atSign [.child [.name (jstr "x")]]) .NotEqual
        (.query .atSign [.child [.wildcard]]) (.arr [.null, .null])
        (defaultContext noRegexEngine)).1 = .ok true := by
  simp [evaluateComparisonExpression, evaluateComparableExpression, evaluateQueryExpression,
    evalSegmentList, evaluateSegment, evaluateChildSegment, evalChildSelectorsLoop,
    evalChildNodesLoop, evaluateSelector, evaluateNameSelector, evaluateWildcardSelector,
    getChild, getChildren, jstr]

/-- C7 (amended).  When at least one side of a comparison evaluates to a
nodelist of length two or more, every comparison operator evaluates to
false — except that when the other side is empty, `!=` evaluates to true
(the code compares lengths in its empty-side branch). -/
theorem comparison_multi_length_semantics :
    ∀ (lhs rhs : Expression) (node : JSON) (context c₁ c₂ : QueryContext)
      (lhsNodes rhsNodes : List JSON),
      evaluateComparableExpression lhs node context = (.ok lhsNodes, c₁) →
      evaluateComparableExpression rhs node c₁ = (.ok rhsNodes, c₂) →
      1 < lhsNodes.length ∨ 1 < rhsNodes.length →
      ((lhsNodes ≠ [] → rhsNodes ≠ [] → ∀ operator,
          (evaluateComparisonExpression lhs operator rhs node context).1 = .ok false)
       ∧ ((lhsNodes = [] ∨ rhsNodes = []) →
          (evaluateComparisonExpression lhs .NotEqual rhs node context).1 = .ok true
          ∧ (evaluateComparisonExpression lhs .Equal rhs node context).1 = .ok false
          ∧ (evaluateComparisonExpression lhs .LessThan rhs node context).1 = .ok false
          ∧ (evaluateComparisonExpression lhs .LessThanOrEqual rhs node context).1 = .ok false
          ∧ (evaluateComparisonExpression lhs .GreaterThan rhs node context).1 = .ok false
          ∧ (evaluateComparisonExpression lhs .GreaterThanOrEqual rhs node context).1
              = .ok false)) := by
  intro lhs rhs node context c₁ c₂ lhsNodes rhsNodes h1 h2 hbig
  constructor
  · intro hL0 hR0 operator
    have hA : lhsNodes.length ≠ 0 := by simp [List.length_eq_zero, hL0]
    have hB : rhsNodes.length ≠ 0 := by simp [List.length_eq_zero, hR0]
    have hc1 : lhsNodes.length ≠ 1 ∨ rhsNodes.length ≠ 1 := by
      rcases hbig with h | h
      · exact Or.inl (by omega)
      · exact Or.inr (by omega)
    cases operator <;> simp [evaluateComparisonExpression, h1, h2, hA, hB, hc1]
  · intro hemp
    rcases hemp with he | he
    · have hRlen : 1 < rhsNodes.length := by
        rcases hbig with h | h
        · rw [he] at h; simp at h
        · exact h
      have hR0 : rhsNodes.length ≠ 0 := by omega
      subst he
      refine ⟨?_, ?_, ?_, ?_, ?_, ?_⟩ <;>
        simp [evaluateComparisonExpression, h1, h2, hR0, Ne.symm hR0]
    · have hLlen : 1 < lhsNodes.length := by
        rcases hbig with h | h
        · exact h
        · rw [he] at h; simp at h
      have hL0 : lhsNodes.length ≠ 0 := by omega
      subst he
      refine ⟨?_, ?_, ?_, ?_, ?_, ?_⟩ <;>
        simp [evaluateComparisonExpression, h1, h2, hL0, Ne.symm hL0]

/-- Witness for the amended C7: `null == @[*]` (both sides non-empty, the
right of length two) evaluates to false. -/
theorem comparison_multi_length_semantics_witness :
    (evaluateComparisonExpression (.literal .null) .Equal (.query .atSign [.child [.wildcard]])
        (.arr [.null, .null]) (defaultContext noRegexEngine)).1 = .ok false := by
  have h := comparison_multi_length_semantics (.literal .null)
    (.query .atSign [.child [.wildcard]]) (.arr [.null, .null])
    (defaultContext noRegexEngine) (defaultContext noRegexEngine) (defaultContext noRegexEngine)
    [JSON.null] [JSON.null, JSON.null]
    (by simp [evaluateComparableExpression, evaluateLiteralExpression])
    (by simp [evaluateComparableExpression, evaluateQueryExpression, evalSegmentList,
      evaluateSegment, evaluateChildSegment, evalChildSelectorsLoop, evalChildNodesLoop,
      evaluateSelector, evaluateWildcardSelector, getChildren])
    (by simp)
  exact h.1 (by simp) (by simp) .Equal

end ToolQuery
namespace ToolQuery

theorem segmentListArityOK_append (xs ys : List Segment) :
    segmentListArityOK (xs ++ ys) = (segmentListArityOK xs && segmentListArityOK ys) := by
  induction xs with
  | nil => simp [segmentListArityOK]
  | cons x xs ih => simp [segmentListArityOK, ih, Bool.and_assoc]

theorem segmentListCmpOK_append (xs ys : List Segment) :
    segmentListCmpOK (xs ++ ys) = (segmentListCmpOK xs && segmentListCmpOK ys) := by
  induction xs with
  | nil => simp [segmentListCmpOK]
  | cons x xs ih => simp [segmentListCmpOK, ih, Bool.and_assoc]

theorem selectorListArityOK_append (xs ys : List Selector) :
    selectorListArityOK (xs ++ ys) = (selectorListArityOK xs && selectorListArityOK ys) := by
  induction xs with
  | nil => simp [selectorListArityOK]
  | cons x xs ih => simp [selectorListArityOK, ih, Bool.and_assoc]

theorem selectorListCmpOK_append (xs ys : List Selector) :
    selectorListCmpOK (xs ++ ys) = (selectorListCmpOK xs && selectorListCmpOK ys) := by
  induction xs with
  | nil => simp [selectorListCmpOK]
  | cons x xs ih => simp [selectorListCmpOK, ih, Bool.and_assoc]

theorem exprListArityOK_append (xs ys : List Expression) :
    exprListArityOK (xs ++ ys) = (exprListArityOK xs && exprListArityOK ys) := by
  induction xs with
  | nil => simp [exprListArityOK]
  | cons x xs ih => simp [exprListArityOK, ih, Bool.and_assoc]

theorem exprListCmpOK_append (xs ys : List Expression) :
    exprListCmpOK (xs ++ ys) = (exprListCmpOK xs && exprListCmpOK ys) := by
  induction xs with
  | nil => simp [exprListCmpOK]
  | cons x xs ih => simp [exprListCmpOK, ih, Bool.and_assoc]

theorem segsInv_append (h : SegsInv xs) (h1 : SegInv x) : SegsInv (xs ++ [x]) := by
  obtain ⟨a, c⟩ := h
  obtain ⟨a1, c1⟩ := h1
  exact ⟨by simp [segmentListArityOK_append, a, segmentListArityOK, a1],
         by simp [segmentListCmpOK_append, c, segmentListCmpOK, c1]⟩

theorem selsInv_append (h : SelsInv xs) (h1 : SelInv x) : SelsInv (xs ++ [x]) := by
  obtain ⟨a, c⟩ := h
  obtain ⟨a1, c1⟩ := h1
  exact ⟨by simp [selectorListArityOK_append, a, selectorListArityOK, a1],
         by simp [selectorListCmpOK_append, c, selectorListCmpOK, c1]⟩

theorem exprsInv_append (h : ExprsInv xs) (h1 : ExprInv x) : ExprsInv (xs ++ [x]) := by
  obtain ⟨a, c⟩ := h
  obtain ⟨a1, c1⟩ := h1
  exact ⟨by simp [exprListArityOK_append, a, exprListArityOK, a1],
         by simp [exprListCmpOK_append, c, exprListCmpOK, c1]⟩

theorem exprsInv_single (h : ExprInv e) : ExprsInv [e] := by
  exact ⟨by simp [exprListArityOK, h.1], by simp [exprListCmpOK, h.2]⟩

theorem segsInv_nil : SegsInv [] := ⟨by simp [segmentListArityOK], by simp [segmentListCmpOK]⟩
theorem selsInv_nil : SelsInv [] :=
  ⟨by simp [selectorListArityOK], by simp [selectorListCmpOK]⟩
theorem exprsInv_nil : ExprsInv [] := ⟨by simp [exprListArityOK], by simp [exprListCmpOK]⟩

theorem nonSingular_false {e : Expression} (h : ¬ nonSingularQueryExpr e = true) :
    nonSingularQueryExpr e = false := by
  simpa using h

theorem exprInv_not {e : Expression} (h : ExprInv e) : ExprInv (.not e) :=
  ⟨by simp [exprArityOK, h.1], by simp [exprCmpOK, h.2]⟩

theorem comparableSideOK_of_checks (e : Expression) (st : PState) (u : Unit)
    (hs : comparableShape e = true) (hn : nonSingularQueryExpr e = false)
    (hc : checkComparableType e st = .ok u) : comparableSideOK e = true := by
  cases e <;> simp [comparableShape] at hs <;> simp [comparableSideOK]
  · simp [nonSingularQueryExpr] at hn
    exact hn
  · next f args =>
    simp [checkComparableType] at hc
    cases hr : f.resultType <;> simp [hr] at hc <;> simp [hr]

theorem exprInv_orOf (ops : List Expression) (h : ExprsInv ops) :
    ExprInv (orOfOperands ops) := by
  match ops with
  | [] =>
    have he : orOfOperands [] = .or [] := rfl
    rw [he]
    exact ⟨by simp [exprArityOK, h.1], by simp [exprCmpOK, h.2]⟩
  | [e] =>
    have he : orOfOperands [e] = e := rfl
    rw [he]
    obtain ⟨a, c⟩ := h
    simp [exprListArityOK] at a
    simp [exprListCmpOK] at c
    exact ⟨a, c⟩
  | e1 :: e2 :: rest =>
    have he : orOfOperands (e1 :: e2 :: rest) = .or (e1 :: e2 :: rest) := rfl
    rw [he]
    exact ⟨by simp [exprArityOK, h.1], by simp [exprCmpOK, h.2]⟩

theorem exprInv_andOf (ops : List Expression) (h : ExprsInv ops) :
    ExprInv (andOfOperands ops) := by
  match ops with
  | [] =>
    have he : andOfOperands [] = .and [] := rfl
    rw [he]
    exact ⟨by simp [exprArityOK, h.1], by simp [exprCmpOK, h.2]⟩
  | [e] =>
    have he : andOfOperands [e] = e := rfl
    rw [he]
    obtain ⟨a, c⟩ := h
    simp [exprListArityOK] at a
    simp [exprListCmpOK] at c
    exact ⟨a, c⟩
  | e1 :: e2 :: rest =>
    have he : andOfOperands (e1 :: e2 :: rest) = .and (e1 :: e2 :: rest) := rfl
    rw [he]
    exact ⟨by simp [exprArityOK, h.1], by simp [exprCmpOK, h.2]⟩

set_option maxHeartbeats 4000000 in
theorem parserInvariant : ∀ n, ParserInv n := by
  intro n
  induction n with
  | zero =>
    refine ⟨?_, ?_, ?_, ?_, ?_, ?_, ?_, ?_, ?_, ?_, ?_, ?_, ?_, ?_, ?_⟩
    · intro input segments st r st' h _; simp [parseSegments] at h
    · intro input st seg st' h; simp [parseSegment] at h
    · intro input d selectors st seg st' h _; simp [parseBracketedSelectors] at h
    · intro input st sel st' h; simp [parseSelector] at h
    · intro input st sel st' h; simp [parseFilterSelector] at h
    · intro input st e st' h; simp [parseExpression] at h
    · intro input st e st' h; simp [parseOrExpression] at h
    · intro input operands st e st' h _; simp [parseOrRest] at h
    · intro input st e st' h; simp [parseAndExpression] at h
    · intro input operands st e st' h _; simp [parseAndRest] at h
    · intro input st e st' h; simp [parseBasicExpression] at h
    · intro input st e st' h; simp [parseParenExpression] at h
    · intro input st e st' h; simp [parseComparable] at h
    · intro input func st e st' h; simp [parseFunctionArguments] at h
    · intro input func args st r st' h _; simp [parseFunctionArgumentsRest] at h
  | succ n ih =>
    obtain ⟨ihSegments, ihSegment, ihBracketed, ihSelector, ihFilter, ihExpr, ihOr, ihOrRest,
      ihAnd, ihAndRest, ihBasic, ihParen, ihComparable, ihFuncArgs, ihArgsRest⟩ := ih
    refine ⟨?_, ?_, ?_, ?_, ?_, ?_, ?_, ?_, ?_, ?_, ?_, ?_, ?_, ?_, ?_⟩
    -- parseSegments
    · intro input segments st r st' h hsegs
      simp only [parseSegments] at h
      split at h
      · simp at h
      · next heq =>
        simp at h
        obtain ⟨h1, _⟩ := h
        subst h1
        exact hsegs
      · next heq =>
        exact ihSegments _ _ _ _ _ h (segsInv_append hsegs (ihSegment _ _ _ _ heq))
    -- parseSegment
    · intro input st seg st' h
      simp only [parseSegment] at h
      repeat' split at h
      all_goals try exact ihBracketed _ _ _ _ _ _ h selsInv_nil
      all_goals try simp at h
      all_goals
        obtain ⟨h1, h2⟩ := h
      all_goals subst h1
      all_goals
        simp [SegInv, segmentArityOK, segmentCmpOK, selectorListArityOK, selectorListCmpOK,
          selectorArityOK, selectorCmpOK]
    -- parseBracketedSelectors
    · intro input d selectors st seg st' h hsels
      simp only [parseBracketedSelectors] at h
      repeat' split at h
      all_goals try simp at h
      all_goals try
        (obtain ⟨h1, h2⟩ := h
         subst h1
         cases d <;>
           simp [SegInv, segmentArityOK, segmentCmpOK, hsels.1, hsels.2])
      all_goals
        rename_i heq
      · exact ihBracketed _ _ _ _ _ _ h (selsInv_append hsels (ihSelector _ _ _ _ heq))
    -- parseSelector
    · intro input st sel st' h
      simp only [parseSelector] at h
      repeat' split at h
      all_goals try exact ihFilter _ _ _ _ h
      all_goals try simp only [parseNameSelector, parseWildcardSelector, parseArraySelector] at h
      all_goals repeat' split at h
      all_goals try simp at h
      all_goals
        obtain ⟨h1, h2⟩ := h
      all_goals subst h1
      all_goals simp [SelInv, selectorArityOK, selectorCmpOK]
    -- parseFilterSelector
    · intro input st sel st' h
      simp only [parseFilterSelector] at h
      split at h
      · simp at h
      · split at h
        · simp at h
        · next heq =>
          simp at h
          obtain ⟨h1, h2⟩ := h
          subst h1
          have he := ihExpr _ _ _ _ heq
          exact ⟨by simp [selectorArityOK, he.1], by simp [selectorCmpOK, he.2]⟩
    -- parseExpression
    · intro input st e st' h
      simp only [parseExpression] at h
      exact ihOr _ _ _ _ h
    -- parseOrExpression
    · intro input st e st' h
      simp only [parseOrExpression] at h
      split at h
      · simp at h
      · next heq =>
        exact ihOrRest _ _ _ _ _ h (exprsInv_single (ihAnd _ _ _ _ heq))
    -- parseOrRest
    · intro input operands st e st' h hops
      simp only [parseOrRest] at h
      repeat' split at h
      all_goals try simp at h
      · obtain ⟨h1, h2⟩ := h
        subst h1
        exact exprInv_orOf _ hops
      · next heq =>
        exact ihOrRest _ _ _ _ _ h (exprsInv_append hops (ihAnd _ _ _ _ heq))
    -- parseAndExpression
    · intro input st e st' h
      simp only [parseAndExpression] at h
      split at h
      · simp at h
      · next heq =>
        exact ihAndRest _ _ _ _ _ h (exprsInv_single (ihBasic _ _ _ _ heq))
    -- parseAndRest
    · intro input operands st e st' h hops
      simp only [parseAndRest] at h
      repeat' split at h
      all_goals try simp at h
      · obtain ⟨h1, h2⟩ := h
        subst h1
        exact exprInv_andOf _ hops
      · next heq =>
        exact ihAndRest _ _ _ _ _ h (exprsInv_append hops (ihBasic _ _ _ _ heq))
    -- parseBasicExpression
    · intro input st e st' h
      simp only [parseBasicExpression] at h
      repeat' split at h
      all_goals try simp at h
      all_goals try
        (obtain ⟨h1, h2⟩ := h
         subst h1)
      all_goals rename_i x e1 st1 heq hcond hnot
      all_goals try simp at hnot
      all_goals try simp only [if_pos hcond] at heq
      all_goals try simp only [if_neg hcond] at heq
      all_goals simp at heq
      all_goals repeat' split at heq
      all_goals try simp at heq
      -- parenthesized, possibly negated
      all_goals try
        (have hp : ExprInv _ := ihParen _ _ _ _ (by assumption)
         first
           | exact exprInv_not hp
           | exact hp)
      all_goals try
        (obtain ⟨hq1, hq2⟩ := heq
         subst hq1)
      -- bare comparable (test expression), possibly negated
      all_goals try
        (have hcq : ExprInv _ ∧ comparableShape _ = true := ihComparable _ _ _ _ (by assumption)
         first
           | exact exprInv_not hcq.1
           | exact hcq.1)
      -- the comparison leaf
      all_goals
        rename_i hL x3 op st2 hop hnsL x2 a1 hchkL x1 eR stR hR hnsR x0 a0 hchkR
      all_goals
        (have hLc := ihComparable _ _ _ _ hL
         have hRc := ihComparable _ _ _ _ hR
         have hsL := comparableSideOK_of_checks _ _ _ hLc.2 (nonSingular_false hnsL) hchkL
         have hsR := comparableSideOK_of_checks _ _ _ hRc.2 (nonSingular_false hnsR) hchkR
         exact ⟨by simp [exprArityOK, hLc.1.1, hRc.1.1],
                by simp [exprCmpOK, hsL, hsR, hLc.1.2, hRc.1.2]⟩)
    -- parseParenExpression
    · intro input st e st' h
      simp only [parseParenExpression] at h
      repeat' split at h
      all_goals try simp at h
      · obtain ⟨h1, h2⟩ := h
        subst h1
        exact ihExpr _ _ _ _ (by assumption)
    -- parseComparable
    · intro input st e st' h
      simp only [parseComparable] at h
      repeat' split at h
      all_goals try exact ihFuncArgs _ _ _ _ _ h
      all_goals try simp at h
      all_goals
        obtain ⟨h1, h2⟩ := h
      all_goals subst h1
      -- query '@' and '$' leaves, then literal leaves
      all_goals try
        (next heq =>
          have hs := ihSegments _ _ _ _ _ heq segsInv_nil
          exact ⟨⟨by simp [exprArityOK, hs.1], by simp [exprCmpOK, hs.2]⟩,
            by simp [comparableShape]⟩)
      all_goals
        exact ⟨⟨by simp [exprArityOK], by simp [exprCmpOK]⟩, by simp [comparableShape]⟩
    -- parseFunctionArguments
    · intro input func st e st' h
      simp only [parseFunctionArguments] at h
      split at h
      · simp at h
      · split at h
        · simp at h
        · next args st1 heq =>
          split at h
          · simp at h
          · next hlen =>
            simp at h
            obtain ⟨h1, h2⟩ := h
            subst h1
            have hargs := ihArgsRest _ _ _ _ _ _ heq exprsInv_nil
            push_neg at hlen
            refine ⟨⟨?_, ?_⟩, ?_⟩
            · simp [exprArityOK, hargs.1, hlen]
            · simp [exprCmpOK, hargs.2]
            · simp [comparableShape]
    -- parseFunctionArgumentsRest
    · intro input func args st r st' h hargs
      simp only [parseFunctionArgumentsRest] at h
      repeat' split at h
      all_goals try simp at h
      all_goals try
        (obtain ⟨h1, h2⟩ := h
         subst h1
         exact hargs)
      · exact ihArgsRest _ _ _ _ _ _ h (exprsInv_append hargs (ihExpr _ _ _ _ (by assumption)))

end ToolQuery
namespace ToolQuery

/-! ## C3: the singular-query / Value-function gate on comparisons -/

/-- C3.  Whole-query form of the parser's comparison gate: every query
that `parseQuery` returns successfully is comparison-well-typed — every
comparison anywhere in it has both sides a literal, a singular query, or
a call of a function whose declared result type is `Value`.
Contrapositively, an input whose parse would contain a comparison with a
non-singular query side or a non-`Value` function side is never parsed
successfully: `parseQuery` raises a parse error on it. -/
theorem comparison_singular_value_gate (context : QueryContext) (input : JSString) (q : Query)
    (h : parseQuery context input = .ok q) : queryCmpOK q = true := by
  simp only [parseQuery] at h
  repeat' split at h
  all_goals try simp at h
  subst h
  have hs := (parserInvariant (parseFuel input)).1 _ _ _ _ _ (by assumption) segsInv_nil
  simpa [queryCmpOK] using hs.2

/-- The C3 gate applied at the concrete input `$[?@.a == 'b']`, whose
parse succeeds with a singular-query comparison. -/
theorem comparison_singular_value_gate_witness :
    queryCmpOK ⟨[.child [.filter (.comparison (.query .atSign [.child [.name (jstr "a")]])
      .Equal (.literal (.str (jstr "b"))))]]⟩ = true :=
  comparison_singular_value_gate (defaultContext noRegexEngine)
    (jstr "$[?@.a == 'b']") _ (by rfl)

/-! ## C8: the exact-arity check on function calls -/

/-- C8.  Whole-query form of the parser's arity check: every query that
`parseQuery` returns successfully is arity-exact — every function call
anywhere in it has exactly as many arguments as its extension declares
parameter types.  Contrapositively, for every registered function
extension, an input whose parse would contain a call to it with too few
or too many arguments is never parsed successfully: `parseQuery` raises
a parse error on it. -/
theorem function_arity_exact (context : QueryContext) (input : JSString) (q : Query)
    (h : parseQuery context input = .ok q) : queryArityOK q = true := by
  simp only [parseQuery] at h
  repeat' split at h
  all_goals try simp at h
  subst h
  have hs := (parserInvariant (parseFuel input)).1 _ _ _ _ _ (by assumption) segsInv_nil
  simpa [queryArityOK] using hs.1

/-- The C8 arity theorem applied at the concrete input
`$[?count(@) == 'b']`, whose parse succeeds with a one-argument call of
the one-parameter intrinsic `count`. -/
theorem function_arity_exact_witness :
    queryArityOK ⟨[.child [.filter (.comparison (.function countFunction [.query .atSign []])
      .Equal (.literal (.str (jstr "b"))))]]⟩ = true :=
  function_arity_exact (defaultContext noRegexEngine)
    (jstr "$[?count(@) == 'b']") _ (by rfl)

end ToolQuery
